import Mathlib

/-!
Verification development for the MakeCatalog repository (wise-dream/MakeCatalog).

The development shallowly embeds the parts of the code that the checked
properties are about:

* `src/core/models.py` — the catalog data model (`Settings`, `Section`,
  `Series`, `Table`, `MediaItem`, `CurveDataset`, `Model`, `Block`,
  `ModelBundle`) together with the `from_dict` parsers;
* `src/core/json_loader.py` — `load_catalog`, which flattens a catalog into
  the ordered block list, and its helpers `_slug` / `_new_block_id`;
* `src/stages/toc.py` — the TOC hierarchy resolver (`_parents_chain`,
  `_infer_section_level_by_hierarchy`, `_infer_section_level`);
* `src/cli.py` — the fragment of `main` that builds the bundle.

Python values that can appear in a parsed JSON document, or in the `params`
dictionary of a block, are embedded as the inductive type `PValue`.  Python
floats are embedded as `PyFloat` (an exact rational, an infinity or a nan);
only coercion success/failure and identity of values matter to the checked
properties, never float rounding.  Fallible Python code (constructors that can
raise) is embedded as `Option`-returning functions.  The nondeterministic
`uuid.uuid4().hex` draws of the id generator are embedded as an explicit
supply `Nat → String`, consumed one draw per generated block id, exactly as
the source consumes one `uuid4()` call per emitted block.
-/

namespace MakeCatalog

/-! ### Python string primitives

Structural (kernel-reducible) models of the Python `str` operations the
sources use: `strip`, `lower`, `replace(" ", "-")`, and truthiness.  `strip`
and `lower` are modelled on the ASCII range, which is exact for every literal
the loader manipulates. -/

/-- The whitespace characters of the Python `str.strip` (ASCII range). -/
def pyIsWs (c : Char) : Bool :=
  c = ' ' || c = '\t' || c = '\n' || c = '\r' || c = '\x0b' || c = '\x0c'

/-- Python `str.strip()`: drop whitespace from both ends. -/
def pyStrip (s : String) : String :=
  String.mk (((s.data.dropWhile pyIsWs).reverse.dropWhile pyIsWs).reverse)

/-- ASCII lower-casing of one character (model of `str.lower` per char). -/
def lowerChar (c : Char) : Char :=
  if 'A' ≤ c && c ≤ 'Z' then Char.ofNat (c.toNat + 32) else c

/-- Python `str.lower()` (ASCII range). -/
def pyLower (s : String) : String :=
  String.mk (s.data.map lowerChar)

/-- Python string truthiness composed with `or`: `a or b` for strings. -/
def pyOrS (a b : String) : String :=
  if a = "" then b else a

/-! ### Python values (`Any`) and floats -/

/-- A Python float: a finite value (kept exact as a rational — rounding never
matters to the checked properties), an infinity, or a nan. -/
inductive PyFloat where
  | finite (q : Rat)
  | inf (neg : Bool)
  | nan
  deriving DecidableEq

/-- A Python value as it occurs in a parsed JSON document or in the
`params` dictionary of a block: `None`, `bool`, `int`, `float`, `str`, `list` (also used
for the tuples the loader stores in params), and `dict` with string keys. -/
inductive PValue where
  | null
  | bool (b : Bool)
  | int (n : Int)
  | float (x : PyFloat)
  | str (s : String)
  | list (l : List PValue)
  | obj (l : List (String × PValue))

/-- Model of `d.get(key)` on a Python dict with default `None`: first binding wins
(keys of a parsed JSON object are unique). -/
def pyDictGet (d : List (String × PValue)) (key : String) : PValue :=
  match d.find? (fun p => p.1 = key) with
  | some p => p.2
  | none => .null

/-- Whether a `PValue` is Python-truthy. -/
def pyTruthy : PValue → Bool
  | .null => false
  | .bool b => b
  | .int n => n ≠ 0
  | .float (.finite q) => q ≠ 0
  | .float _ => true
  | .str s => s ≠ ""
  | .list l => ¬ l.isEmpty
  | .obj l => ¬ l.isEmpty

/-- The single-quote character as a string (kept out of string literals). -/
def sq : String := String.mk [Char.ofNat 39]

/-- Python `repr` of a value, used only inside `str` of containers.  String
escaping is approximated (no claim depends on the text of a repr). -/
def pyRepr : PValue → String
  | .null => "None"
  | .bool true => "True"
  | .bool false => "False"
  | .int n => toString n
  | .float (.finite q) => if q.den = 1 then toString q.num ++ ".0" else toString q
  | .float (.inf neg) => if neg then "-inf" else "inf"
  | .float .nan => "nan"
  | .str s => sq ++ s ++ sq
  | .list l => "[" ++ String.intercalate ", " (l.attach.map fun x => pyRepr x.1) ++ "]"
  | .obj l =>
      "\x7b" ++
        String.intercalate ", "
          (l.attach.map fun x => sq ++ x.1.1 ++ (sq ++ ": ") ++ pyRepr x.1.2) ++
      "\x7d"
decreasing_by
  · have := List.sizeOf_lt_of_mem x.2
    simp only [PValue.list.sizeOf_spec]
    omega
  · have h1 := List.sizeOf_lt_of_mem x.2
    simp only [PValue.obj.sizeOf_spec]
    rw [show x.1 = (x.1.1, x.1.2) from rfl, Prod.mk.sizeOf_spec] at h1
    omega

/-- Python `str(v)`. -/
def pyStr : PValue → String
  | .str s => s
  | v => pyRepr v

/-- Model of `str(d.get(key, "") or "")`: the ubiquitous lenient string-field read of
`models.py` — a falsy value (absent key, `None`, `""`, `0`, `[]`, …) becomes
`""`, anything else is `str`-ed. -/
def strField (d : List (String × PValue)) (key : String) : String :=
  let v := pyDictGet d key
  if pyTruthy v then pyStr v else ""

/-- Like `strField` but with a non-empty default, modelling
`str(d.get(key, dflt) or dflt)`. -/
def strFieldD (d : List (String × PValue)) (key dflt : String) : String :=
  match d.find? (fun p => p.1 = key) with
  | some p => if pyTruthy p.2 then pyStr p.2 else dflt
  | none => dflt

/-! ### Python numeric coercions -/

/-- One decimal digit. -/
def digitVal (c : Char) : Nat := c.toNat - '0'.toNat

/-- Value of a digit run. -/
def digitsVal (l : List Char) : Nat :=
  l.foldl (fun acc c => 10 * acc + digitVal c) 0

/-- Split a leading run of decimal digits. -/
def spanDigits (l : List Char) : List Char × List Char :=
  (l.takeWhile Char.isDigit, l.dropWhile Char.isDigit)

/-- Parse an optional sign, returning (negative?, rest). -/
def parseSign : List Char → Bool × List Char
  | '+' :: rest => (false, rest)
  | '-' :: rest => (true, rest)
  | l => (false, l)

/-- Model of Python `float(s)` on a string: optional surrounding whitespace,
optional sign, then either a named special (`inf`, `infinity`, `nan`) or a
decimal literal `digits [. digits] [(e|E) [sign] digits]` with at least one
digit in the mantissa.  (PEP-515 digit underscores are not modelled; no
checked property depends on which exotic literals parse.) -/
def pyFloatOfString (s : String) : Option PyFloat :=
  let t := (pyStrip s).data.map lowerChar
  let (neg, t) := parseSign t
  if t = ['i', 'n', 'f'] || t = ['i', 'n', 'f', 'i', 'n', 'i', 't', 'y'] then
    some (.inf neg)
  else if t = ['n', 'a', 'n'] then
    some .nan
  else
    let (ip, t) := spanDigits t
    let (fp, t) :=
      match t with
      | '.' :: rest => spanDigits rest
      | _ => ([], t)
    if ip.isEmpty && fp.isEmpty then none
    else
      let mant : Int := (digitsVal (ip ++ fp) : Int)
      let scale : Nat := fp.length
      let finishWith (e : Int) : Option PyFloat :=
        let q : Rat := (mant : Rat) * (10 : Rat) ^ (e - (scale : Int))
        some (.finite (if neg then -q else q))
      match t with
      | [] => finishWith 0
      | 'e' :: rest =>
          let (eneg, rest) := parseSign rest
          let (ed, rest) := spanDigits rest
          if ed.isEmpty || ¬ rest.isEmpty then none
          else finishWith (if eneg then -(digitsVal ed : Int) else (digitsVal ed : Int))
      | _ => none

/-- Model of Python `float(v)` on an arbitrary value: numbers and bools
coerce, numeric strings parse, everything else raises (`none`). -/
def pyFloat? : PValue → Option PyFloat
  | .int n => some (.finite (n : Rat))
  | .float x => some x
  | .bool b => some (.finite (if b then 1 else 0))
  | .str s => pyFloatOfString s
  | _ => none

/-- Truncation toward zero, as Python `int(float)`. -/
def ratTrunc (q : Rat) : Int :=
  if q < 0 then ⌈q⌉ else ⌊q⌋

/-- Model of Python `int(s)` on a string: optional whitespace, optional sign,
a non-empty digit run and nothing else. -/
def pyIntOfString (s : String) : Option Int :=
  let t := (pyStrip s).data
  let (neg, t) := parseSign t
  let (ds, rest) := spanDigits t
  if ds.isEmpty || ¬ rest.isEmpty then none
  else some (if neg then -(digitsVal ds : Int) else (digitsVal ds : Int))

/-- Model of Python `int(v)`: ints and bools coerce, finite floats truncate,
infinities and nans raise, numeric strings parse, everything else raises. -/
def pyInt? : PValue → Option Int
  | .int n => some n
  | .bool b => some (if b then 1 else 0)
  | .float (.finite q) => some (ratTrunc q)
  | .float _ => none
  | .str s => pyIntOfString s
  | _ => none

/-! ### Iteration and dict coercions used by the `from_dict` parsers

`models.py` iterates `d.get(key) or []` everywhere.  A falsy value iterates
as the empty list; a Python list iterates over its elements; a string
iterates over its one-character substrings; a dict iterates over its keys;
any other truthy value raises `TypeError` and aborts the parse. -/

/-- Elements produced by `for x in (v or [])`, `none` when iteration raises. -/
def pyElems? (v : PValue) : Option (List PValue) :=
  if ¬ pyTruthy v then some []
  else
    match v with
    | .list l => some l
    | .str s => some (s.data.map fun c => .str (String.mk [c]))
    | .obj l => some (l.map fun p => .str p.1)
    | _ => none

/-- Model of `d = d or {}` for an argument that is then used as a dict: a falsy value
becomes the empty dict, a truthy non-dict raises on the first `.get`. -/
def pyDictOrEmpty? (v : PValue) : Option (List (String × PValue)) :=
  if ¬ pyTruthy v then some []
  else
    match v with
    | .obj l => some l
    | _ => none

/-- Iterate `v or []` and parse every element, aborting on the first raise. -/
def parseListWith (f : PValue → Option α) (v : PValue) : Option (List α) := do
  let l ← pyElems? v
  l.mapM f

/-- Model of `v == None or v == ""` — the price-field guard of `Model.from_dict`. -/
def isNoneOrEmptyStr : PValue → Bool
  | .null => true
  | .str s => s = ""
  | _ => false

/-- Model of `str(d.get(key)) if d.get(key) is not None else None` — the optional
string fields of `models.py` (`unit`, `currency`, `image`). -/
def optStrField (d : List (String × PValue)) (key : String) : Option String :=
  match pyDictGet d key with
  | .null => none
  | v => some (pyStr v)

/-! ### The catalog data model (`src/core/models.py`) -/

/-- Model of `models.Company`. -/
structure Company where
  name : String := ""
  address : String := ""
  contacts : String := ""
  deriving DecidableEq

/-- Model of `Company.from_dict` (raises when given a truthy non-dict). -/
def Company.fromDict? (v : PValue) : Option Company := do
  let d ← pyDictOrEmpty? v
  pure { name := strField d "name", address := strField d "address",
         contacts := strField d "contacts" }

/-- Approximation of Python `str(Company(...))` (dataclass repr); only ever
produced for the unused `Settings.get "company"` branch. -/
def companyReprStr (c : Company) : String :=
  "Company(name=" ++ sq ++ c.name ++ sq ++ ", address=" ++ sq ++ c.address ++
    sq ++ ", contacts=" ++ sq ++ c.contacts ++ sq ++ ")"

/-- Model of `models.Settings`.  Note: there is no `generate_model_pages` field — the
dataclass declares exactly these nine attributes. -/
structure Settings where
  year : String := ""
  title : String := ""
  theme_color : String := "#E53935"
  currency : String := "₸"
  cover_bg : String := ""
  cover_logo : String := ""
  assets_base : String := ""
  use_pagedjs : String := "yes"
  company : Company := {}
  deriving DecidableEq

/-- Model of `Settings.get(key, default)`: `getattr(self, key, None)` yields the field
for the nine declared attributes and `None` — hence the default — for any
other key.  (For a key naming one of the methods of the dataclass, the source
would return the `str` of a bound method; no caller uses such a key.) -/
def Settings.pyGet (s : Settings) (key dflt : String) : String :=
  if key = "year" then s.year
  else if key = "title" then s.title
  else if key = "theme_color" then s.theme_color
  else if key = "currency" then s.currency
  else if key = "cover_bg" then s.cover_bg
  else if key = "cover_logo" then s.cover_logo
  else if key = "assets_base" then s.assets_base
  else if key = "use_pagedjs" then s.use_pagedjs
  else if key = "company" then companyReprStr s.company
  else dflt

/-- Model of `Settings.from_dict`.  Unknown keys of the input dict — in particular
`generate_model_pages` — are silently discarded. -/
def Settings.fromDict? (v : PValue) : Option Settings := do
  let d ← pyDictOrEmpty? v
  let company ← Company.fromDict? (pyDictGet d "company")
  pure { year := strField d "year", title := strField d "title",
         theme_color := strFieldD d "theme_color" "#E53935",
         currency := strFieldD d "currency" "₸",
         cover_bg := strField d "cover_bg",
         cover_logo := strField d "cover_logo",
         assets_base := strField d "assets_base",
         use_pagedjs := strFieldD d "use_pagedjs" "yes",
         company := company }

/-- Model of `models.TableColumn`. -/
structure TableColumn where
  key : String
  title : String
  deriving DecidableEq

/-- Model of `TableColumn.from_dict` (raises on a non-dict element). -/
def TableColumn.fromDict? : PValue → Option TableColumn
  | .obj d => some { key := strField d "key", title := strField d "title" }
  | _ => none

/-- Model of `models.Table`.  Rows are dicts; the `from_dict` of the source stores whatever
`list(...)` yields and a non-dict row only raises later, inside
the `row.get` call of `load_catalog` — this embedding surfaces that raise at parse
time instead, which is observationally equal for every document whose
non-empty tables are rendered. -/
structure Table where
  type : String := "custom"
  title : String := ""
  columns : List TableColumn := []
  rows : List (List (String × PValue)) := []
  notes_md : String := ""

/-- Model of `Table.from_dict`. -/
def Table.fromDict? : PValue → Option Table
  | .obj d => do
      let cols ← parseListWith TableColumn.fromDict? (pyDictGet d "columns")
      let rows ← parseListWith
        (fun r => match r with | .obj l => some l | _ => none)
        (pyDictGet d "rows")
      pure { type := strFieldD d "type" "custom", title := strField d "title",
             columns := cols, rows := rows,
             notes_md := strField d "notes_md" }
  | _ => none

/-- Model of `models.MediaType` — a `str`-mixin `Enum` in the source. -/
inductive MediaType where
  | photo | drawing | curve | video | doc
  deriving DecidableEq

/-- Model of `MediaType(mtype)`: the enum constructor, raising on unknown values. -/
def mediaTypeOf? (s : String) : Option MediaType :=
  if s = "photo" then some .photo
  else if s = "drawing" then some .drawing
  else if s = "curve" then some .curve
  else if s = "video" then some .video
  else if s = "doc" then some .doc
  else none

/-- Python `str(member)` of the `MediaType` enum.  Because `MediaType` mixes
`str` into `Enum` without being a `StrEnum`, `Enum.__str__` wins and the
result is `"MediaType.curve"`, not the value `"curve"` of the member. -/
def mediaTypeStr : MediaType → String
  | .photo => "MediaType.photo"
  | .drawing => "MediaType.drawing"
  | .curve => "MediaType.curve"
  | .video => "MediaType.video"
  | .doc => "MediaType.doc"

/-- Model of `models.CurveSeries`: a label and the float point pairs that survived
coercion. -/
structure CurveSeries where
  label : String
  points : List (PyFloat × PyFloat)
  deriving DecidableEq

/-- Model of `x, y = p`: unpacking a value into exactly two items.  A two-element list
(or tuple) unpacks to its elements, a two-character string to its characters,
a two-key dict to its keys; everything else raises. -/
def pyUnpair? : PValue → Option (PValue × PValue)
  | .list [x, y] => some (x, y)
  | .str s =>
      match s.data with
      | [a, b] => some (.str (String.mk [a]), .str (String.mk [b]))
      | _ => none
  | .obj [p, q] => some (.str p.1, .str q.1)
  | _ => none

/-- One iteration of the point loop of `CurveSeries.from_dict`:
`try: x, y = p; pts.append((float(x), float(y))) except: continue`. -/
def coercePoint? (p : PValue) : Option (PyFloat × PyFloat) := do
  let (x, y) ← pyUnpair? p
  let fx ← pyFloat? x
  let fy ← pyFloat? y
  pure (fx, fy)

/-- Model of `CurveSeries.from_dict` (raises only when given a non-dict, or when the
`points` value itself is truthy and non-iterable; malformed points are
dropped). -/
def CurveSeries.fromDict? : PValue → Option CurveSeries
  | .obj d => do
      let raw ← pyElems? (pyDictGet d "points")
      pure { label := strField d "label", points := raw.filterMap coercePoint? }
  | _ => none

/-- Model of `models.CurveDataset`. -/
structure CurveDataset where
  x_unit : String := ""
  y_unit : String := ""
  series : List CurveSeries := []
  deriving DecidableEq

/-- Model of `CurveDataset.from_dict`. -/
def CurveDataset.fromDict? (v : PValue) : Option CurveDataset := do
  let d ← pyDictOrEmpty? v
  let ser ← parseListWith CurveSeries.fromDict? (pyDictGet d "series")
  pure { x_unit := strField d "x_unit", y_unit := strField d "y_unit",
         series := ser }

/-- Model of `models.MediaItem`. -/
structure MediaItem where
  id : String
  type : MediaType
  file : String
  caption : String := ""
  dataset : Option CurveDataset := none
  deriving DecidableEq

/-- Model of `MediaItem.from_dict`: the dataset is constructed for every item whose
raw `type` string is `"curve"` — even when the `dataset` key is absent the
result is a (truthy) empty `CurveDataset` — and the enum constructor raises
on an unrecognized type. -/
def MediaItem.fromDict? : PValue → Option MediaItem
  | .obj d => do
      let mtype := strFieldD d "type" "photo"
      let dataset ←
        if mtype = "curve" then
          (CurveDataset.fromDict? (pyDictGet d "dataset")).map some
        else
          some none
      let t ← mediaTypeOf? mtype
      pure { id := strField d "id", type := t, file := strField d "file",
             caption := strField d "caption", dataset := dataset }
  | _ => none

/-- Model of `models.Hero`. -/
structure Hero where
  photo : String := ""
  banner_md : String := ""
  deriving DecidableEq

/-- Model of `Hero.from_dict`. -/
def Hero.fromDict? (v : PValue) : Option Hero := do
  let d ← pyDictOrEmpty? v
  pure { photo := strField d "photo", banner_md := strField d "banner_md" }

/-- Model of `models.AttributeItem` (`value` is kept raw, as in the source). -/
structure AttributeItem where
  name : String
  value : PValue
  unit : Option String := none

/-- Model of `AttributeItem.from_dict`. -/
def AttributeItem.fromDict? : PValue → Option AttributeItem
  | .obj d =>
      some { name := strField d "name", value := pyDictGet d "value",
             unit := optStrField d "unit" }
  | _ => none

/-- Model of `models.AttributeGroup`. -/
structure AttributeGroup where
  group : String
  items : List AttributeItem := []

/-- Model of `AttributeGroup.from_dict`. -/
def AttributeGroup.fromDict? : PValue → Option AttributeGroup
  | .obj d => do
      let items ← parseListWith AttributeItem.fromDict? (pyDictGet d "items")
      pure { group := strField d "group", items := items }
  | _ => none

/-- Model of `models.Model`. -/
structure Model where
  sku : String
  name : String
  price : Option PyFloat := none
  currency : Option String := none
  unit : Option String := none
  image : Option String := none
  description_md : String := ""
  attributes : List AttributeGroup := []
  media_refs : List String := []

/-- Model of `Model.from_dict`.  The price is `None` exactly when the `price` key is
absent, `None` or `""`; a present, non-empty value that `float()` cannot
coerce raises and aborts the parse — there is no `try` around it. -/
def Model.fromDict? : PValue → Option Model
  | .obj d => do
      let price ←
        match d.find? (fun p => p.1 = "price") with
        | none => some none
        | some p =>
            if isNoneOrEmptyStr p.2 then some none
            else (pyFloat? p.2).map some
      let attrs ← parseListWith AttributeGroup.fromDict? (pyDictGet d "attributes")
      let refs ← pyElems? (pyDictGet d "media_refs")
      pure { sku := strField d "sku", name := strField d "name",
             price := price,
             currency := optStrField d "currency",
             unit := optStrField d "unit",
             image := optStrField d "image",
             description_md := strField d "description_md",
             attributes := attrs,
             media_refs := refs.map pyStr }
  | _ => none

/-- Model of `models.Accessory`. -/
structure Accessory where
  sku : String
  name : String
  image : Option String := none
  deriving DecidableEq

/-- Model of `Accessory.from_dict`. -/
def Accessory.fromDict? : PValue → Option Accessory
  | .obj d =>
      some { sku := strField d "sku", name := strField d "name",
             image := optStrField d "image" }
  | _ => none

/-- Model of `models.Series`. -/
structure Series where
  code : String
  name : String
  tags : List String := []
  summary_md : String := ""
  construction_md : String := ""
  features : String := ""
  hero : Hero := {}
  tables : List Table := []
  media : List MediaItem := []
  models : List Model := []
  accessories : List Accessory := []

/-- Model of `Series.from_dict`. -/
def Series.fromDict? : PValue → Option Series
  | .obj d => do
      let tags ← pyElems? (pyDictGet d "tags")
      let hero ← Hero.fromDict? (pyDictGet d "hero")
      let tables ← parseListWith Table.fromDict? (pyDictGet d "tables")
      let media ← parseListWith MediaItem.fromDict? (pyDictGet d "media")
      let models ← parseListWith Model.fromDict? (pyDictGet d "models")
      let accessories ← parseListWith Accessory.fromDict? (pyDictGet d "accessories")
      pure { code := strField d "code", name := strField d "name",
             tags := tags.map pyStr,
             summary_md := strField d "summary_md",
             construction_md := strField d "construction_md",
             features := strField d "features",
             hero := hero, tables := tables, media := media,
             models := models, accessories := accessories }
  | _ => none

/-- Model of `models.Section`. -/
structure Section where
  code : String
  title : String
  intro_md : String := ""
  series : List Series := []

/-- Model of `Section.from_dict`. -/
def Section.fromDict? : PValue → Option Section
  | .obj d => do
      let series ← parseListWith Series.fromDict? (pyDictGet d "series")
      pure { code := strField d "code", title := strField d "title",
             intro_md := strField d "intro_md", series := series }
  | _ => none

/-- Model of `models.Catalog` (the parse root). -/
structure Catalog where
  settings : Settings
  sections : List Section

/-- Model of `Catalog.from_dict`, `none` when the Python original raises. -/
def Catalog.fromDict? : PValue → Option Catalog
  | .obj d => do
      let settings ← Settings.fromDict? (pyDictGet d "settings")
      let sections ← parseListWith Section.fromDict? (pyDictGet d "sections")
      pure { settings := settings, sections := sections }
  | _ => none

/-! ### Render blocks and the bundle (`src/core/models.py`, bottom half) -/

/-- Model of `models.Block` — the unified render unit. -/
structure Block where
  block_id : String
  type : String
  title : Option String := none
  subtitle : Option String := none
  category_id : Option String := none
  sku_list : Option String := none
  layout : Option String := none
  columns : Option Nat := none
  params : List (String × PValue) := []
  page_break_before : Bool := false
  show_in_toc : Bool := false
  order : Nat := 0
  parent_id : Option String := none

/-- Lookup in a Python dict built as `{b.block_id: b for b in blocks}` and in
the assoc-list embedding below: first binding with the key (bindings are kept
unique by `dictInsert`). -/
def dictGet? (m : List (String × Block)) (k : String) : Option Block :=
  (m.find? (fun p => p.1 = k)).map (fun p => p.2)

/-- Assignment `m[k] = v` on a Python dict: replace an existing binding in
place, else append. -/
def dictInsert (m : List (String × Block)) (k : String) (v : Block) :
    List (String × Block) :=
  if m.any (fun p => p.1 = k) then
    m.map (fun p => if p.1 = k then (k, v) else p)
  else
    m ++ [(k, v)]

/-- Model of `{b.block_id: b for b in blocks}` — the identifier index. -/
def buildIndex (bs : List Block) : List (String × Block) :=
  bs.foldl (fun m b => dictInsert m b.block_id b) []

/-- Model of `models.ModelBundle`. -/
structure ModelBundle where
  settings : Settings
  sections : List Section
  blocks : List Block := []
  block_index : List (String × Block) := []

/-- Model of `ModelBundle.rebuild_index` (returning the updated bundle rather than
mutating). -/
def ModelBundle.rebuild_index (mb : ModelBundle) : ModelBundle :=
  { mb with block_index := buildIndex mb.blocks }

/-! ### Block-id generation (`json_loader._slug`, `json_loader._new_block_id`)

`uuid4().hex` draws are an explicit supply `Nat → String`; `load_catalog`
consumes exactly one draw per emitted block (the fallback draw inside
`_slug` is unreachable there because every id prefix is a non-empty
alphanumeric literal, so both the 8-character fallback and the 6-character
suffix of one `_new_block_id` call are cut from the same draw). -/

/-- The character class of `_ID_SAFE = re.compile(r"[^a-zA-Z0-9_-]+")`. -/
def idSafe (c : Char) : Bool :=
  c.isAlphanum || c = '_' || c = '-'

/-- Model of `_ID_SAFE.sub("-", s)`: replace every maximal run of unsafe characters
with a single dash.  The flag records whether the previous character was part
of an unsafe run. -/
def subSafeAux (prevUnsafe : Bool) : List Char → List Char
  | [] => []
  | c :: cs =>
      if idSafe c then c :: subSafeAux false cs
      else if prevUnsafe then subSafeAux true cs
      else '-' :: subSafeAux true cs

/-- Model of `s[:n]` — Python slicing by characters, kept kernel-reducible. -/
def strTake (s : String) (n : Nat) : String :=
  String.mk (s.data.take n)

/-- The strip / space-to-dash / unsafe-run collapse pipeline at the top of
`_slug`, before the emptiness fallback. -/
def slugClean (s : String) : String :=
  String.mk (subSafeAux false ((pyStrip s).data.map fun c => if c = ' ' then '-' else c))

/-- Model of `json_loader._slug` (and the identical `models._slug`): strip, turn
spaces into dashes, collapse unsafe runs into dashes, fall back to the first
eight hex characters of a fresh `uuid4().hex` draw when empty, cap at 64
characters. -/
def pySlug (fallback : String) (s : String) : String :=
  let s := slugClean s
  let s := if s = "" then strTake fallback 8 else s
  strTake s 64

/-- Model of `json_loader._new_block_id(prefix, *parts)`, with `draw` the
`uuid4().hex` value consumed by this call. -/
def new_block_id (draw : String) (pre : String) (parts : List String) : String :=
  let base := String.intercalate "-" (pre :: parts.filter (fun p => p ≠ ""))
  pySlug draw base ++ "-" ++ strTake draw 6

/-- Model of `json_loader._as_str`. -/
def as_str (v : PValue) : String :=
  match v with
  | .null => ""
  | v => pyStr v

/-! ### The block builder (`json_loader.load_catalog`)

The source threads a growing `blocks` list, the `order` counter (stepped by
10 after every append) and the implicit sequence of `uuid4()` draws; the
state below threads exactly those three.  `push` models one
`blocks.append(Block(...))` followed by `order += 10`, with the appended
id of the block having consumed the draw `supply st.uid`.  Each `Block(...)`
constructor call of the source is factored into a named definition, one per
emission site. -/

structure BState where
  blocks : List Block
  order : Nat
  uid : Nat

/-- Append one block: `blocks.append(b); order += 10`, consuming one id
draw. -/
def push (st : BState) (b : Block) : BState :=
  { blocks := st.blocks ++ [b], order := st.order + 10, uid := st.uid + 1 }

/-- Model of `gen_models = (catalog.settings.get("generate_model_pages", "no").lower()
in ("yes", "true", "1", "да"))`. -/
def gen_models (s : Settings) : Bool :=
  let v := pyLower (s.pyGet "generate_model_pages" "no")
  v = "yes" || v = "true" || v = "1" || v = "да"

/-- The markdown pipe-table text of one series table (`load_catalog`, the
`md` accumulation). -/
def tableMd (tbl : Table) : String :=
  let headers := tbl.columns.map (fun c => as_str (.str (pyOrS c.title c.key)))
  let keys := tbl.columns.map (fun c => as_str (.str c.key))
  let md := "| " ++ String.intercalate " | " headers ++ " |\n"
  let md := md ++ "| " ++ String.intercalate " | " (List.replicate headers.length "---") ++ " |\n"
  let md := tbl.rows.foldl
    (fun acc row =>
      acc ++ "| " ++
        String.intercalate " | "
          (keys.map fun k =>
            match row.find? (fun p => p.1 = k) with
            | some p => as_str p.2
            | none => as_str (.str ""))
        ++ " |\n")
    md
  if pyStrip tbl.notes_md ≠ "" then md ++ "\n" ++ pyStrip tbl.notes_md else md

/-- The front `cover` block. -/
def coverBlock (bid : String) (order : Nat) : Block :=
  { block_id := bid, type := "cover", params := [("page", .str "cover")],
    order := order, parent_id := none }

/-- The `toc` block. -/
def tocBlock (bid : String) (order : Nat) : Block :=
  { block_id := bid, type := "toc", title := some "Содержание",
    params := [("page", .str "toc"), ("page_break_before", .bool true)],
    page_break_before := true, order := order, parent_id := none }

/-- The level-1 `section_heading` block of a section. -/
def sectionHeadingBlock (bid secTitle : String) (order : Nat) : Block :=
  { block_id := bid, type := "section_heading", title := some secTitle,
    params := [("toc_level", .int 1)], page_break_before := true,
    show_in_toc := true, order := order, parent_id := none }

/-- The optional section-intro `text_block`. -/
def introBlock (bid : String) (sec : Section) (order : Nat)
    (secBlockId : String) : Block :=
  { block_id := bid, type := "text_block", title := some "Введение",
    params := [("text_md", .str sec.intro_md)],
    order := order, parent_id := some secBlockId }

/-- The level-2 `section_heading` block of a series. -/
def seriesHeadingBlock (bid serName : String) (order : Nat)
    (secBlockId : String) : Block :=
  { block_id := bid, type := "section_heading", title := some serName,
    params := [("toc_level", .int 2)], page_break_before := true,
    show_in_toc := true, order := order, parent_id := some secBlockId }

/-- The optional hero `image_full` block of a series. -/
def heroBlock (bid : String) (ser : Series) (serName : String) (order : Nat)
    (serBlockId : String) : Block :=
  { block_id := bid, type := "image_full", title := some serName,
    params := [("media", .str ser.hero.photo), ("caption", .str serName)],
    order := order, parent_id := some serBlockId }

/-- The optional merged series-description `text_block`. -/
def descBlock (bid : String) (mdParts : List String) (order : Nat)
    (serBlockId : String) : Block :=
  { block_id := bid, type := "text_block", title := some "Описание серии",
    params := [("text_md", .str (String.intercalate "\n\n" mdParts))],
    order := order, parent_id := some serBlockId }

/-- The `text_block` of one non-empty series table. -/
def tableBlock (bid : String) (tbl : Table) (order : Nat)
    (serBlockId : String) : Block :=
  { block_id := bid, type := "text_block",
    title := some (pyOrS tbl.title "Таблица"),
    params := [("text_md", .str (tableMd tbl))],
    order := order, parent_id := some serBlockId }

/-- The dataset payload stored in the params of a `curve` block. -/
def datasetPayload (ds : CurveDataset) : PValue :=
  .obj [("x_unit", .str ds.x_unit), ("y_unit", .str ds.y_unit),
        ("series", .list (ds.series.map fun s =>
          .obj [("label", .str s.label),
                ("points", .list (s.points.map fun p =>
                  .list [.float p.1, .float p.2]))]))]

/-- The `curve` block of a curve media item. -/
def curveBlock (bid : String) (m : MediaItem) (ds : CurveDataset)
    (order : Nat) (serBlockId : String) : Block :=
  { block_id := bid, type := "curve",
    title := some (pyOrS m.caption "Аэродинамическая характеристика"),
    params := [("dataset", datasetPayload ds)],
    order := order, parent_id := some serBlockId }

/-- The `image_full` block of a non-curve media item. -/
def imageBlock (bid : String) (m : MediaItem) (order : Nat)
    (serBlockId : String) : Block :=
  { block_id := bid, type := "image_full",
    title := some (pyOrS m.caption "Иллюстрация"),
    params := [("media", .str m.file), ("caption", .str m.caption)],
    order := order, parent_id := some serBlockId }

/-- The attribute payload of a `spec_table` block. -/
def attrPayload (gs : List AttributeGroup) : PValue :=
  .list (gs.map fun g =>
    .obj [("group", .str g.group),
          ("items", .list (g.items.map fun it =>
            .obj [("name", .str it.name), ("value", it.value),
                  ("unit", match it.unit with
                           | some u => .str u
                           | none => .null)]))])

/-- The `spec_table` block of one model (only reachable when the
model-pages flag is on). -/
def specBlock (bid : String) (mdl : Model) (sku : String)
    (settings : Settings) (order : Nat) (serBlockId : String) : Block :=
  { block_id := bid, type := "spec_table",
    title := some (pyOrS mdl.name sku),
    sku_list := some sku, layout := some "grid-2", columns := some 2,
    params :=
      [("page_break_before", .bool true),
       ("group_headers", .bool true),
       ("attributes", attrPayload mdl.attributes),
       ("image",
          match mdl.image with
          | some i => if i = "" then .null else .str i
          | none => .null),
       ("description_md", .str mdl.description_md),
       ("price",
          match mdl.price with
          | some x => .float x
          | none => .null),
       ("currency", .str
          (match mdl.currency with
           | some c => pyOrS c settings.currency
           | none => settings.currency)),
       ("unit",
          match mdl.unit with
          | some u => .str u
          | none => .null),
       ("media_refs", .list (mdl.media_refs.map PValue.str))],
    page_break_before := true, show_in_toc := false,
    order := order, parent_id := some serBlockId }

/-- The back-cover block. -/
def backcoverBlock (bid : String) (order : Nat) : Block :=
  { block_id := bid, type := "backcover", title := some "Контакты",
    params := [("page", .str "backcover")], page_break_before := true,
    order := order, parent_id := none }

/-- The `for tbl in ser.tables` loop: a table with falsy (empty) `columns` or
`rows` is skipped, otherwise one `text_block` is emitted. -/
def buildTables (supply : Nat → String) (serBlockId : String)
    (st : BState) : List Table → BState
  | [] => st
  | tbl :: rest =>
      let st :=
        if tbl.columns.isEmpty || tbl.rows.isEmpty then st
        else
          push st (tableBlock
            (new_block_id (supply st.uid) "tbl" [pyOrS tbl.type "table"])
            tbl st.order serBlockId)
      buildTables supply serBlockId st rest

/-- The `for m in ser.media` loop: items with a blank file reference are
skipped; an item whose `str(m.type)` equals `"curve"` and whose dataset is
truthy gets a `curve` block, every other item an `image_full` block.  (Note
`str` of the enum member never equals `"curve"`; see `mediaTypeStr`.) -/
def buildMedia (supply : Nat → String) (serCode serName serBlockId : String)
    (st : BState) : List MediaItem → BState
  | [] => st
  | m :: rest =>
      let st :=
        if pyStrip m.file = "" then st
        else if mediaTypeStr m.type = "curve" then
          match m.dataset with
          | some ds =>
              push st (curveBlock
                (new_block_id (supply st.uid) "curve"
                  [pyOrS m.id (pyOrS serCode serName)])
                m ds st.order serBlockId)
          | none =>
              push st (imageBlock
                (new_block_id (supply st.uid) "img"
                  [pyOrS m.id (pyOrS serCode serName)])
                m st.order serBlockId)
        else
          push st (imageBlock
            (new_block_id (supply st.uid) "img"
              [pyOrS m.id (pyOrS serCode serName)])
            m st.order serBlockId)
      buildMedia supply serCode serName serBlockId st rest

/-- The `for mdl in ser.models` loop (guarded by `gen_models` at the call
site): models with a blank SKU are skipped, the rest get a `spec_table`
block. -/
def buildModels (supply : Nat → String) (settings : Settings)
    (serBlockId : String) (st : BState) : List Model → BState
  | [] => st
  | mdl :: rest =>
      let sku := pyStrip mdl.sku
      let st :=
        if sku = "" then st
        else
          push st (specBlock (new_block_id (supply st.uid) "spec" [sku])
            mdl sku settings st.order serBlockId)
      buildModels supply settings serBlockId st rest

/-- One series of the `for ser in sec.series` loop: the level-2 heading, the
optional hero image (`if ser.hero and (ser.hero.photo or "").strip():` — the
dataclass instance is always truthy, so only the photo string decides), the
optional merged description, the table, media and (when enabled) model
blocks. -/
def buildSeriesOne (supply : Nat → String) (genM : Bool) (settings : Settings)
    (secBlockId : String) (st : BState) (ser : Series) : BState :=
  let serName := pyOrS ser.name (pyOrS ser.code "Серия")
  let serBlockId := new_block_id (supply st.uid) "ser" [pyOrS ser.code ser.name]
  let st := push st (seriesHeadingBlock serBlockId serName st.order secBlockId)
  let st :=
    if pyStrip ser.hero.photo ≠ "" then
      push st (heroBlock
        (new_block_id (supply st.uid) "img" ["hero", pyOrS ser.code ser.name])
        ser serName st.order serBlockId)
    else st
  let mdParts : List String :=
    (if pyStrip ser.summary_md ≠ "" then [pyStrip ser.summary_md] else []) ++
    (if pyStrip ser.construction_md ≠ "" then
       ["**Конструкция**\n" ++ pyStrip ser.construction_md] else [])
  let st :=
    if mdParts ≠ [] then
      push st (descBlock
        (new_block_id (supply st.uid) "txt" ["series", pyOrS ser.code ser.name])
        mdParts st.order serBlockId)
    else st
  let st := buildTables supply serBlockId st ser.tables
  let st := buildMedia supply ser.code serName serBlockId st ser.media
  if genM then buildModels supply settings serBlockId st ser.models else st

/-- The `for ser in sec.series` loop. -/
def buildSeriesList (supply : Nat → String) (genM : Bool) (settings : Settings)
    (secBlockId : String) (st : BState) : List Series → BState
  | [] => st
  | ser :: rest =>
      buildSeriesList supply genM settings secBlockId
        (buildSeriesOne supply genM settings secBlockId st ser) rest

/-- One section of the `for sec in catalog.sections` loop: the level-1
heading, the optional intro text block, then the series. -/
def buildSectionOne (supply : Nat → String) (genM : Bool) (settings : Settings)
    (st : BState) (sec : Section) : BState :=
  let secTitle := pyOrS sec.title (pyOrS sec.code "Раздел")
  let secBlockId := new_block_id (supply st.uid) "sec" [pyOrS sec.code sec.title]
  let st := push st (sectionHeadingBlock secBlockId secTitle st.order)
  let st :=
    if sec.intro_md ≠ "" then
      push st (introBlock
        (new_block_id (supply st.uid) "txt" ["intro", pyOrS sec.code sec.title])
        sec st.order secBlockId)
    else st
  buildSeriesList supply genM settings secBlockId st sec.series

/-- The `for sec in catalog.sections` loop. -/
def buildSections (supply : Nat → String) (genM : Bool) (settings : Settings)
    (st : BState) : List Section → BState
  | [] => st
  | sec :: rest =>
      buildSections supply genM settings
        (buildSectionOne supply genM settings st sec) rest

/-- The full emission sequence of `load_catalog` — cover, toc, sections,
back cover — as the final builder state. -/
def buildBlocksState (supply : Nat → String) (catalog : Catalog) : BState :=
  let st : BState := ⟨[], 0, 0⟩
  let st := push st (coverBlock (new_block_id (supply st.uid) "cover" ["front"]) st.order)
  let st := push st (tocBlock (new_block_id (supply st.uid) "toc" ["contents"]) st.order)
  let genM := gen_models catalog.settings
  let st := buildSections supply genM catalog.settings st catalog.sections
  let st := push st (backcoverBlock (new_block_id (supply st.uid) "cover" ["back"]) st.order)
  st

/-- The block list of `load_catalog` in emission order, before the final
sort. -/
def buildBlocks (supply : Nat → String) (catalog : Catalog) : List Block :=
  (buildBlocksState supply catalog).blocks

/-- Model of `json_loader.load_catalog` on an already-parsed catalog: build the
blocks, sort them stably by `order`, rebuild the index.  (The `.json` suffix
check and `json.loads` happen before the `Catalog` exists and are not part of
the embedded state.) -/
def load_catalog (supply : Nat → String) (catalog : Catalog) : ModelBundle :=
  let blocks := buildBlocks supply catalog
  ModelBundle.rebuild_index
    { settings := catalog.settings, sections := catalog.sections,
      blocks := blocks.mergeSort (fun a b => a.order ≤ b.order),
      block_index := [] }

/-- Model of `load_catalog` on a raw JSON document: parse, then build; `none` when the
parse raises. -/
def load_catalog_doc? (supply : Nat → String) (doc : PValue) : Option ModelBundle :=
  (Catalog.fromDict? doc).map (load_catalog supply)

set_option linter.unusedVariables false in
/-- The block list `cli.main` works with: `model = load_catalog(...)` is
computed before, and independently of, the `--no-cover` flag — the flag only
suppresses the rendered cover/backcover HTML fragments and sets
`settings.has_cover`. -/
def cliBlocks (no_cover : Bool) (supply : Nat → String) (catalog : Catalog) :
    List Block :=
  (load_catalog supply catalog).blocks

/-! ### The TOC hierarchy resolver (`src/stages/toc.py`) -/

/-- Model of `params.get(key)` on the params dict of a block (default `None`). -/
def getParam (ps : List (String × PValue)) (key : String) : PValue :=
  pyDictGet ps key

/-- Model of `v is None` for the value returned by `params.get`. -/
def isNull : PValue → Bool
  | .null => true
  | _ => false

/-- The effective identifier index of `toc._parents_chain`:
`getattr(model, "block_index", None) or {x.block_id: x for x in
model.blocks}` — the stored index when non-empty (a dataclass field always
exists), else a dict freshly built from the block list. -/
def effIndex (model : ModelBundle) : List (String × Block) :=
  if model.block_index.isEmpty then buildIndex model.blocks else model.block_index

/-- The parent-id probe of `toc._parents_chain`: the source tries the
attribute names `parent_id`, `parent`, `parent_block_id`, `parent_block` in
order, and a `Block` always has the first. -/
def getParentId (b : Block) : Option String :=
  b.parent_id

/-- The `while guard < 100` ancestor walk of `toc._parents_chain`, with the
remaining guard budget explicit. -/
def parentsChainAux (idx : List (String × Block)) : Nat → Block → List Block
  | 0, _ => []
  | g + 1, cur =>
      match getParentId cur with
      | none => []
      | some pid =>
          match dictGet? idx pid with
          | none => []
          | some parent => parent :: parentsChainAux idx g parent

/-- Model of `toc._parents_chain`. -/
def parents_chain (model : ModelBundle) (b : Block) : List Block :=
  parentsChainAux (effIndex model) 100 b

/-- Model of `toc._infer_section_level_by_hierarchy`: non-headings get level 1; a
heading gets level 1 when no ancestor in its chain is itself a
`section_heading`, else level 2. -/
def infer_section_level_by_hierarchy (model : ModelBundle) (b : Block) : Int :=
  if pyLower b.type ≠ "section_heading" then 1
  else
    let chain := parents_chain model b
    let ancestors := chain.countP (fun p => pyLower p.type = "section_heading")
    if ancestors = 0 then 1 else 2

/-- Model of `toc._infer_section_level`: an explicit `params["toc_level"]` that
`int()`-coerces to 1 or 2 wins; otherwise the hierarchy decides. -/
def infer_section_level (model : ModelBundle) (b : Block) : Int :=
  let lvl := getParam b.params "toc_level"
  if isNull lvl then infer_section_level_by_hierarchy model b
  else
    match pyInt? lvl with
    | some n => if n = 1 || n = 2 then n else infer_section_level_by_hierarchy model b
    | none => infer_section_level_by_hierarchy model b

/-! ### Invariant machinery for the block builder

`GoodStep st st'` says the step from builder state `st` to `st'` only
appended blocks, with orders continuing in steps of 10, every appended
parent id of each block already bound earlier (in the old blocks or in the newly
appended prefix), and — under a hex id supply — the id of every appended block
well formed. -/

/-- The block ids of a list, in order. -/
def idsOf (bs : List Block) : List String := bs.map Block.block_id

/-- A well-formed generated block id: non-empty, only ASCII letters, digits,
hyphens and underscores, at most 71 characters (64-character slug, hyphen,
6-character hex suffix). -/
def IdOK (s : String) : Prop :=
  s ≠ "" ∧ (∀ c ∈ s.data, idSafe c) ∧ s.length ≤ 71

/-- A lowercase-hex character, as produced by `uuid4().hex`. -/
def isHexLower (c : Char) : Bool := c.isDigit || ('a' ≤ c && c ≤ 'f')

/-- The id-supply freshness format: every `uuid4().hex` draw is a 32-character
lowercase-hex string. -/
def HexOK (supply : Nat → String) : Prop :=
  ∀ k, (supply k).length = 32 ∧ ∀ c ∈ (supply k).data, isHexLower c

/-- Orders of a freshly appended run: base, base+10, base+20, … -/
def OrderlyFrom (base : Nat) (new : List Block) : Prop :=
  ∀ i (h : i < new.length), new[i].order = base + 10 * i

/-- Parent linkage of a freshly appended run: each parent id is bound among
`pids` (the ids of the pre-existing blocks) or among the ids of the appended
blocks strictly before it. -/
def ChunkOK (pids : List String) (new : List Block) : Prop :=
  ∀ i (h : i < new.length) pid, new[i].parent_id = some pid →
    pid ∈ pids ++ idsOf (new.take i)

/-- The composite step invariant of the builder functions. -/
def GoodStep (supply : Nat → String) (st st' : BState) : Prop :=
  ∃ new, st'.blocks = st.blocks ++ new ∧
    st'.order = st.order + 10 * new.length ∧
    OrderlyFrom st.order new ∧
    ChunkOK (idsOf st.blocks) new ∧
    (HexOK supply → ∀ b ∈ new, IdOK b.block_id)

theorem goodStep_refl (supply : Nat → String) (st : BState) :
    GoodStep supply st st := by
  refine ⟨[], by simp, by simp, ?_, ?_, ?_⟩
  · intro i h; simp at h
  · intro i h; simp at h
  · intro _ b hb; simp at hb

theorem goodStep_push (supply : Nat → String) (st : BState) (b : Block)
    (hord : b.order = st.order)
    (hpar : ∀ pid, b.parent_id = some pid → pid ∈ idsOf st.blocks)
    (hid : HexOK supply → IdOK b.block_id) :
    GoodStep supply st (push st b) := by
  refine ⟨[b], rfl, by simp [push], ?_, ?_, ?_⟩
  · intro i h
    simp only [List.length_singleton] at h
    have hi0 : i = 0 := by omega
    subst hi0
    simpa using hord
  · intro i h pid hp
    simp only [List.length_singleton] at h
    have hi0 : i = 0 := by omega
    subst hi0
    simp only [List.getElem_singleton] at hp
    exact List.mem_append.mpr (Or.inl (hpar pid hp))
  · intro hs c hc
    rcases List.mem_singleton.mp hc with rfl
    exact hid hs

theorem goodStep_trans {supply : Nat → String} {st st' st'' : BState}
    (h1 : GoodStep supply st st') (h2 : GoodStep supply st' st'') :
    GoodStep supply st st'' := by
  obtain ⟨n1, hb1, ho1, hor1, hch1, hid1⟩ := h1
  obtain ⟨n2, hb2, ho2, hor2, hch2, hid2⟩ := h2
  refine ⟨n1 ++ n2, by rw [hb2, hb1, List.append_assoc], ?_, ?_, ?_, ?_⟩
  · rw [ho2, ho1, List.length_append]; ring
  · intro i h
    rcases Nat.lt_or_ge i n1.length with hi | hi
    · rw [List.getElem_append_left hi]
      exact hor1 i hi
    · have hlen : i - n1.length < n2.length := by
        have := List.length_append n1 n2 ▸ h
        omega
      rw [List.getElem_append_right hi]
      rw [hor2 _ hlen, ho1]
      omega
  · intro i h pid hp
    rcases Nat.lt_or_ge i n1.length with hi | hi
    · rw [List.getElem_append_left hi] at hp
      have := hch1 i hi pid hp
      rw [List.mem_append] at this
      rcases this with hm | hm
      · exact List.mem_append.mpr (Or.inl hm)
      · refine List.mem_append.mpr (Or.inr ?_)
        have htake : (n1 ++ n2).take i = n1.take i :=
          List.take_append_of_le_length (Nat.le_of_lt hi)
        rw [htake]
        exact hm
    · rw [List.getElem_append_right hi] at hp
      have hlen : i - n1.length < n2.length := by
        have := List.length_append n1 n2 ▸ h
        omega
      have hmem := hch2 _ hlen pid hp
      rw [hb1] at hmem
      have htake : (n1 ++ n2).take i = n1 ++ n2.take (i - n1.length) := by
        conv_lhs => rw [show i = n1.length + (i - n1.length) from by omega]
        exact List.take_append _
      rw [htake]
      simp only [idsOf, List.map_append, List.mem_append] at hmem ⊢
      tauto
  · intro hs b hb
    rcases List.mem_append.mp hb with hm | hm
    · exact hid1 hs b hm
    · exact hid2 hs b hm

/-- Ids already bound stay bound across a step. -/
theorem goodStep_ids_mono {supply : Nat → String} {st st' : BState}
    (h : GoodStep supply st st') {x : String}
    (hx : x ∈ idsOf st.blocks) : x ∈ idsOf st'.blocks := by
  obtain ⟨new, hb, -⟩ := h
  rw [hb, idsOf, List.map_append]
  exact List.mem_append.mpr (Or.inl hx)

/-! ### Well-formedness of generated ids -/

theorem subSafeAux_safe (l : List Char) :
    ∀ (flag : Bool), ∀ c ∈ subSafeAux flag l, idSafe c := by
  induction l with
  | nil => intro flag c hc; simp [subSafeAux] at hc
  | cons d cs ih =>
      intro flag c hc
      by_cases hd : idSafe d
      · rw [subSafeAux, if_pos hd] at hc
        rcases List.mem_cons.mp hc with h | h
        · exact h ▸ hd
        · exact ih false c h
      · rw [subSafeAux, if_neg hd] at hc
        by_cases hf : flag
        · rw [hf, if_pos rfl] at hc
          exact ih true c hc
        · rw [Bool.not_eq_true] at hf
          rw [hf] at hc
          simp only [Bool.false_eq_true, if_false] at hc
          rcases List.mem_cons.mp hc with h | h
          · subst h; decide
          · exact ih true c h

theorem isHexLower_idSafe (c : Char) (h : isHexLower c = true) : idSafe c := by
  rw [isHexLower, Bool.or_eq_true] at h
  rw [idSafe, Bool.or_eq_true, Bool.or_eq_true, Char.isAlphanum, Bool.or_eq_true]
  rcases h with h | h
  · exact Or.inl (Or.inl (Or.inr h))
  · rw [Bool.and_eq_true] at h
    refine Or.inl (Or.inl (Or.inl ?_))
    rw [Char.isAlpha, Bool.or_eq_true, Char.isLower]
    refine Or.inr ?_
    rw [Bool.and_eq_true]
    refine ⟨h.1, decide_eq_true ?_⟩
    exact le_trans (of_decide_eq_true h.2) (show ('f' : Char) ≤ 'z' from by decide)

theorem strTake_data (s : String) (n : Nat) : (strTake s n).data = s.data.take n := rfl

/-- Unfolding of `pySlug` through `slugClean`. -/
theorem pySlug_eq (fallback s : String) :
    pySlug fallback s =
      strTake (if slugClean s = "" then strTake fallback 8 else slugClean s) 64 := rfl

theorem slugClean_safe (s : String) : ∀ c ∈ (slugClean s).data, idSafe c := by
  intro c hc
  exact subSafeAux_safe _ false c hc

/-- Every id produced by `_new_block_id` from a lowercase-hex draw is
well formed, whatever the prefix and parts. -/
theorem idOK_new_block_id (draw : String)
    (hdraw : ∀ c ∈ draw.data, isHexLower c) (pre : String) (parts : List String) :
    IdOK (new_block_id draw pre parts) := by
  rw [new_block_id]
  set base := String.intercalate "-" (pre :: parts.filter (fun p => p ≠ "")) with hbase
  have hslug : ∀ c ∈ (pySlug draw base).data, idSafe c := by
    intro c hc
    rw [pySlug_eq, strTake_data] at hc
    have hc2 := List.take_subset _ _ hc
    by_cases hemp : slugClean base = ""
    · rw [if_pos hemp, strTake_data] at hc2
      exact isHexLower_idSafe c (hdraw c (List.take_subset _ _ hc2))
    · rw [if_neg hemp] at hc2
      exact slugClean_safe base c hc2
  have hslug_len : (pySlug draw base).data.length ≤ 64 := by
    rw [pySlug_eq, strTake_data, List.length_take]
    omega
  have hsuf_len : (strTake draw 6).data.length ≤ 6 := by
    rw [strTake_data, List.length_take]
    omega
  refine ⟨?_, ?_, ?_⟩
  · intro he
    have h2 := congrArg String.data he
    rw [String.data_append, String.data_append] at h2
    simp at h2
  · intro c hc
    rw [String.data_append, String.data_append] at hc
    rcases List.mem_append.mp hc with hm | hm
    · rcases List.mem_append.mp hm with hm2 | hm2
      · exact hslug c hm2
      · have hdash : c = '-' := by simpa using hm2
        subst hdash; decide
    · rw [strTake_data] at hm
      exact isHexLower_idSafe c (hdraw c (List.take_subset _ _ hm))
  · have hlen : ∀ t : String, t.length = t.data.length := fun _ => rfl
    rw [hlen, String.data_append, String.data_append, List.length_append,
      List.length_append]
    have hdashlen : ("-" : String).data.length = 1 := rfl
    omega

/-! ### Every builder function makes a good step -/

theorem goodStep_push_gen (supply : Nat → String) (st : BState) (b : Block)
    (hord : b.order = st.order)
    (hpar : ∀ pid, b.parent_id = some pid → pid ∈ idsOf st.blocks)
    (hid : ∃ k pre parts, b.block_id = new_block_id (supply k) pre parts) :
    GoodStep supply st (push st b) := by
  refine goodStep_push supply st b hord hpar ?_
  intro hs
  obtain ⟨k, pre, parts, hb⟩ := hid
  rw [hb]
  exact idOK_new_block_id _ (fun c hc => (hs k).2 c hc) _ _

/-- Membership of the id of a just-pushed block. -/
theorem pushed_id_mem (st : BState) (b : Block) :
    b.block_id ∈ idsOf (push st b).blocks := by
  rw [push, idsOf, List.map_append]
  exact List.mem_append.mpr (Or.inr (by simp))

theorem buildTables_good (supply : Nat → String) (serBlockId : String)
    (ts : List Table) (st : BState) (hpid : serBlockId ∈ idsOf st.blocks) :
    GoodStep supply st (buildTables supply serBlockId st ts) := by
  induction ts generalizing st with
  | nil => exact goodStep_refl supply st
  | cons t rest ih =>
      rw [buildTables]
      by_cases hc : (t.columns.isEmpty || t.rows.isEmpty) = true
      · rw [if_pos hc]
        exact ih st hpid
      · rw [if_neg hc]
        have hstep : GoodStep supply st (push st (tableBlock
            (new_block_id (supply st.uid) "tbl" [pyOrS t.type "table"])
            t st.order serBlockId)) :=
          goodStep_push_gen supply st _ rfl
            (fun pid hp => by injection hp with h; exact h ▸ hpid)
            ⟨st.uid, "tbl", _, rfl⟩
        exact goodStep_trans hstep (ih _ (goodStep_ids_mono hstep hpid))

theorem buildMedia_good (supply : Nat → String)
    (serCode serName serBlockId : String) (ms : List MediaItem) (st : BState)
    (hpid : serBlockId ∈ idsOf st.blocks) :
    GoodStep supply st (buildMedia supply serCode serName serBlockId st ms) := by
  induction ms generalizing st with
  | nil => exact goodStep_refl supply st
  | cons m rest ih =>
      rw [buildMedia]
      by_cases hf : pyStrip m.file = ""
      · rw [if_pos hf]
        exact ih st hpid
      · rw [if_neg hf]
        by_cases hcu : mediaTypeStr m.type = "curve"
        · rw [if_pos hcu]
          cases hds : m.dataset with
          | some ds =>
              have hstep : GoodStep supply st (push st (curveBlock
                  (new_block_id (supply st.uid) "curve"
                    [pyOrS m.id (pyOrS serCode serName)]) m ds st.order serBlockId)) :=
                goodStep_push_gen supply st _ rfl
                  (fun pid hp => by injection hp with h; exact h ▸ hpid)
                  ⟨st.uid, "curve", _, rfl⟩
              exact goodStep_trans hstep (ih _ (goodStep_ids_mono hstep hpid))
          | none =>
              have hstep : GoodStep supply st (push st (imageBlock
                  (new_block_id (supply st.uid) "img"
                    [pyOrS m.id (pyOrS serCode serName)]) m st.order serBlockId)) :=
                goodStep_push_gen supply st _ rfl
                  (fun pid hp => by injection hp with h; exact h ▸ hpid)
                  ⟨st.uid, "img", _, rfl⟩
              exact goodStep_trans hstep (ih _ (goodStep_ids_mono hstep hpid))
        · rw [if_neg hcu]
          have hstep : GoodStep supply st (push st (imageBlock
              (new_block_id (supply st.uid) "img"
                [pyOrS m.id (pyOrS serCode serName)]) m st.order serBlockId)) :=
            goodStep_push_gen supply st _ rfl
              (fun pid hp => by injection hp with h; exact h ▸ hpid)
              ⟨st.uid, "img", _, rfl⟩
          exact goodStep_trans hstep (ih _ (goodStep_ids_mono hstep hpid))

theorem buildModels_good (supply : Nat → String) (settings : Settings)
    (serBlockId : String) (ms : List Model) (st : BState)
    (hpid : serBlockId ∈ idsOf st.blocks) :
    GoodStep supply st (buildModels supply settings serBlockId st ms) := by
  induction ms generalizing st with
  | nil => exact goodStep_refl supply st
  | cons mdl rest ih =>
      rw [buildModels]
      by_cases hs : pyStrip mdl.sku = ""
      · rw [if_pos hs]
        exact ih st hpid
      · rw [if_neg hs]
        have hstep : GoodStep supply st (push st (specBlock
            (new_block_id (supply st.uid) "spec" [pyStrip mdl.sku])
            mdl (pyStrip mdl.sku) settings st.order serBlockId)) :=
          goodStep_push_gen supply st _ rfl
            (fun pid hp => by injection hp with h; exact h ▸ hpid)
            ⟨st.uid, "spec", _, rfl⟩
        exact goodStep_trans hstep (ih _ (goodStep_ids_mono hstep hpid))

set_option maxHeartbeats 1000000 in
theorem buildSeriesOne_good (supply : Nat → String) (genM : Bool)
    (settings : Settings) (secBlockId : String) (st : BState) (ser : Series)
    (hpid : secBlockId ∈ idsOf st.blocks) :
    GoodStep supply st (buildSeriesOne supply genM settings secBlockId st ser) := by
  simp only [buildSeriesOne]
  set serName := pyOrS ser.name (pyOrS ser.code "Серия") with hn
  set serBlockId := new_block_id (supply st.uid) "ser" [pyOrS ser.code ser.name]
    with hsid
  have h1 : GoodStep supply st
      (push st (seriesHeadingBlock serBlockId serName st.order secBlockId)) :=
    goodStep_push_gen supply st _ rfl
      (fun pid hp => by injection hp with h; exact h ▸ hpid)
      ⟨st.uid, "ser", _, hsid⟩
  set st1 := push st (seriesHeadingBlock serBlockId serName st.order secBlockId)
    with hst1
  have hser1 : serBlockId ∈ idsOf st1.blocks := pushed_id_mem st _
  have h2 : GoodStep supply st1
      (if pyStrip ser.hero.photo ≠ "" then
        push st1 (heroBlock
          (new_block_id (supply st1.uid) "img" ["hero", pyOrS ser.code ser.name])
          ser serName st1.order serBlockId)
      else st1) := by
    by_cases hc : pyStrip ser.hero.photo ≠ ""
    · rw [if_pos hc]
      exact goodStep_push_gen supply st1 _ rfl
        (fun pid hp => by injection hp with h; exact h ▸ hser1)
        ⟨st1.uid, "img", _, rfl⟩
    · rw [if_neg hc]
      exact goodStep_refl supply st1
  set st2 :=
    if pyStrip ser.hero.photo ≠ "" then
      push st1 (heroBlock
        (new_block_id (supply st1.uid) "img" ["hero", pyOrS ser.code ser.name])
        ser serName st1.order serBlockId)
    else st1
    with hst2
  have hser2 : serBlockId ∈ idsOf st2.blocks := goodStep_ids_mono h2 hser1
  set mdParts : List String :=
    (if pyStrip ser.summary_md ≠ "" then [pyStrip ser.summary_md] else []) ++
    (if pyStrip ser.construction_md ≠ "" then
       ["**Конструкция**\n" ++ pyStrip ser.construction_md] else [])
    with hmd
  have h3 : GoodStep supply st2
      (if mdParts ≠ [] then
        push st2 (descBlock
          (new_block_id (supply st2.uid) "txt" ["series", pyOrS ser.code ser.name])
          mdParts st2.order serBlockId)
      else st2) := by
    by_cases hc : mdParts ≠ []
    · rw [if_pos hc]
      exact goodStep_push_gen supply st2 _ rfl
        (fun pid hp => by injection hp with h; exact h ▸ hser2)
        ⟨st2.uid, "txt", _, rfl⟩
    · rw [if_neg hc]
      exact goodStep_refl supply st2
  set st3 :=
    if mdParts ≠ [] then
      push st2 (descBlock
        (new_block_id (supply st2.uid) "txt" ["series", pyOrS ser.code ser.name])
        mdParts st2.order serBlockId)
    else st2
    with hst3
  have hser3 : serBlockId ∈ idsOf st3.blocks := goodStep_ids_mono h3 hser2
  have h4 : GoodStep supply st3 (buildTables supply serBlockId st3 ser.tables) :=
    buildTables_good supply serBlockId ser.tables st3 hser3
  set st4 := buildTables supply serBlockId st3 ser.tables with hst4
  have hser4 : serBlockId ∈ idsOf st4.blocks := goodStep_ids_mono h4 hser3
  have h5 : GoodStep supply st4
      (buildMedia supply ser.code serName serBlockId st4 ser.media) :=
    buildMedia_good supply ser.code serName serBlockId ser.media st4 hser4
  set st5 := buildMedia supply ser.code serName serBlockId st4 ser.media with hst5
  have hser5 : serBlockId ∈ idsOf st5.blocks := goodStep_ids_mono h5 hser4
  have h6 : GoodStep supply st5
      (if genM then buildModels supply settings serBlockId st5 ser.models
       else st5) := by
    by_cases hg : genM
    · rw [if_pos hg]
      exact buildModels_good supply settings serBlockId ser.models st5 hser5
    · rw [if_neg hg]
      exact goodStep_refl supply st5
  exact goodStep_trans h1 (goodStep_trans h2 (goodStep_trans h3
    (goodStep_trans h4 (goodStep_trans h5 h6))))

theorem buildSeriesList_good (supply : Nat → String) (genM : Bool)
    (settings : Settings) (secBlockId : String) (ss : List Series) (st : BState)
    (hpid : secBlockId ∈ idsOf st.blocks) :
    GoodStep supply st (buildSeriesList supply genM settings secBlockId st ss) := by
  induction ss generalizing st with
  | nil => exact goodStep_refl supply st
  | cons ser rest ih =>
      rw [buildSeriesList]
      have h1 := buildSeriesOne_good supply genM settings secBlockId st ser hpid
      exact goodStep_trans h1 (ih _ (goodStep_ids_mono h1 hpid))

theorem buildSectionOne_good (supply : Nat → String) (genM : Bool)
    (settings : Settings) (st : BState) (sec : Section) :
    GoodStep supply st (buildSectionOne supply genM settings st sec) := by
  simp only [buildSectionOne]
  set secTitle := pyOrS sec.title (pyOrS sec.code "Раздел") with ht
  set secBlockId := new_block_id (supply st.uid) "sec" [pyOrS sec.code sec.title]
    with hsid
  have h1 : GoodStep supply st
      (push st (sectionHeadingBlock secBlockId secTitle st.order)) :=
    goodStep_push_gen supply st _ rfl
      (fun pid hp => by simp [sectionHeadingBlock] at hp)
      ⟨st.uid, "sec", _, hsid⟩
  set st1 := push st (sectionHeadingBlock secBlockId secTitle st.order) with hst1
  have hsec1 : secBlockId ∈ idsOf st1.blocks := pushed_id_mem st _
  have h2 : GoodStep supply st1
      (if sec.intro_md ≠ "" then
        push st1 (introBlock
          (new_block_id (supply st1.uid) "txt" ["intro", pyOrS sec.code sec.title])
          sec st1.order secBlockId)
      else st1) := by
    by_cases hc : sec.intro_md ≠ ""
    · rw [if_pos hc]
      exact goodStep_push_gen supply st1 _ rfl
        (fun pid hp => by injection hp with h; exact h ▸ hsec1)
        ⟨st1.uid, "txt", _, rfl⟩
    · rw [if_neg hc]
      exact goodStep_refl supply st1
  set st2 :=
    if sec.intro_md ≠ "" then
      push st1 (introBlock
        (new_block_id (supply st1.uid) "txt" ["intro", pyOrS sec.code sec.title])
        sec st1.order secBlockId)
    else st1
    with hst2
  have hsec2 : secBlockId ∈ idsOf st2.blocks := goodStep_ids_mono h2 hsec1
  have h3 := buildSeriesList_good supply genM settings secBlockId sec.series st2 hsec2
  exact goodStep_trans h1 (goodStep_trans h2 h3)

theorem buildSections_good (supply : Nat → String) (genM : Bool)
    (settings : Settings) (secs : List Section) (st : BState) :
    GoodStep supply st (buildSections supply genM settings st secs) := by
  induction secs generalizing st with
  | nil => exact goodStep_refl supply st
  | cons sec rest ih =>
      rw [buildSections]
      exact goodStep_trans (buildSectionOne_good supply genM settings st sec) (ih _)

/-- The whole emission run is a good step from the empty state. -/
theorem buildBlocks_good (supply : Nat → String) (catalog : Catalog) :
    GoodStep supply ⟨[], 0, 0⟩ (buildBlocksState supply catalog) := by
  simp only [buildBlocksState]
  set st0 : BState := ⟨[], 0, 0⟩ with hst0
  have h1 : GoodStep supply st0
      (push st0 (coverBlock (new_block_id (supply st0.uid) "cover" ["front"]) st0.order)) :=
    goodStep_push_gen supply st0 _ rfl
      (fun pid hp => by simp [coverBlock] at hp)
      ⟨st0.uid, "cover", _, rfl⟩
  set st1 := push st0 (coverBlock (new_block_id (supply st0.uid) "cover" ["front"]) st0.order)
  have h2 : GoodStep supply st1
      (push st1 (tocBlock (new_block_id (supply st1.uid) "toc" ["contents"]) st1.order)) :=
    goodStep_push_gen supply st1 _ rfl
      (fun pid hp => by simp [tocBlock] at hp)
      ⟨st1.uid, "toc", _, rfl⟩
  set st2 := push st1 (tocBlock (new_block_id (supply st1.uid) "toc" ["contents"]) st1.order)
  have h3 := buildSections_good supply (gen_models catalog.settings)
    catalog.settings catalog.sections st2
  set st3 := buildSections supply (gen_models catalog.settings) catalog.settings st2 catalog.sections
  have h4 : GoodStep supply st3
      (push st3 (backcoverBlock (new_block_id (supply st3.uid) "cover" ["back"]) st3.order)) :=
    goodStep_push_gen supply st3 _ rfl
      (fun pid hp => by simp [backcoverBlock] at hp)
      ⟨st3.uid, "cover", _, rfl⟩
  exact goodStep_trans h1 (goodStep_trans h2 (goodStep_trans h3 h4))

/-! ### Consequences for the emitted block list -/

theorem buildBlocks_eq_state (supply : Nat → String) (catalog : Catalog) :
    buildBlocks supply catalog = (buildBlocksState supply catalog).blocks := rfl

/-- The emitted list: orders are `0, 10, 20, …` in emission order, parents
are bound strictly earlier, and (for a hex supply) ids are well formed. -/
theorem buildBlocks_spec (supply : Nat → String) (catalog : Catalog) :
    (∀ i (h : i < (buildBlocks supply catalog).length),
        (buildBlocks supply catalog)[i].order = 10 * i) ∧
    ChunkOK [] (buildBlocks supply catalog) ∧
    (HexOK supply → ∀ b ∈ buildBlocks supply catalog, IdOK b.block_id) := by
  obtain ⟨new, hb, ho, hor, hch, hid⟩ := buildBlocks_good supply catalog
  have hnew : buildBlocks supply catalog = new := by
    rw [buildBlocks_eq_state, hb]
    rfl
  rw [hnew]
  refine ⟨?_, ?_, hid⟩
  · intro i h
    have h0 := hor i h
    have hz : (⟨[], 0, 0⟩ : BState).order = 0 := rfl
    omega
  · intro i h pid hp
    have := hch i h pid hp
    simpa [idsOf] using this

theorem buildBlocks_sorted (supply : Nat → String) (catalog : Catalog) :
    List.Pairwise (fun a b : Block => decide (a.order ≤ b.order) = true)
      (buildBlocks supply catalog) := by
  rw [List.pairwise_iff_getElem]
  intro i j hi hj hij
  have h1 := (buildBlocks_spec supply catalog).1 i hi
  have h2 := (buildBlocks_spec supply catalog).1 j hj
  rw [decide_eq_true_eq, h1, h2]
  omega

/-- The stable sort at the end of `load_catalog` is the identity: emission
order is already sorted by `order`. -/
theorem load_catalog_blocks (supply : Nat → String) (catalog : Catalog) :
    (load_catalog supply catalog).blocks = buildBlocks supply catalog := by
  show (buildBlocks supply catalog).mergeSort _ = buildBlocks supply catalog
  exact List.mergeSort_of_sorted (buildBlocks_sorted supply catalog)

theorem load_catalog_index (supply : Nat → String) (catalog : Catalog) :
    (load_catalog supply catalog).block_index =
      buildIndex (load_catalog supply catalog).blocks := rfl

/-! ### Dictionary lemmas for the identifier index -/

/-- Python-dict lookup semantics on a raw block list: the last block with the
given id wins (`{b.block_id: b for b in blocks}`). -/
def lastWith (bs : List Block) (k : String) : Option Block :=
  (bs.filter (fun b => b.block_id = k)).getLast?

theorem find?_map_replace_self (k : String) (v : Block) :
    ∀ m : List (String × Block), m.any (fun p => p.1 = k) = true →
      (m.map (fun p => if p.1 = k then (k, v) else p)).find?
        (fun p => p.1 = k) = some (k, v) := by
  intro m
  induction m with
  | nil => intro h; simp at h
  | cons p rest ih =>
      intro h
      by_cases hp : p.1 = k
      · rw [List.map_cons, if_pos hp, List.find?_cons_of_pos _ (by simp)]
      · rw [List.map_cons, if_neg hp, List.find?_cons_of_neg _ (by simpa using hp)]
        apply ih
        rcases List.any_eq_true.mp h with ⟨q, hq, hqk⟩
        rcases List.mem_cons.mp hq with rfl | hq2
        · exact absurd (of_decide_eq_true hqk) hp
        · exact List.any_eq_true.mpr ⟨q, hq2, hqk⟩

theorem dictGet?_insert_self (m : List (String × Block)) (k : String) (v : Block) :
    dictGet? (dictInsert m k v) k = some v := by
  rw [dictInsert]
  by_cases hany : m.any (fun p => p.1 = k) = true
  · rw [if_pos hany, dictGet?, find?_map_replace_self k v m hany]
    rfl
  · rw [if_neg hany, dictGet?, List.find?_append]
    have hnone : m.find? (fun p => p.1 = k) = none := by
      rw [List.find?_eq_none]
      intro x hx hxk
      exact hany (List.any_eq_true.mpr ⟨x, hx, hxk⟩)
    rw [hnone]
    simp

theorem find?_map_replace_ne (k : String) (v : Block) (k' : String)
    (h : k' ≠ k) (m : List (String × Block)) :
    (m.map (fun p => if p.1 = k then (k, v) else p)).find? (fun p => p.1 = k') =
      m.find? (fun p => p.1 = k') := by
  induction m with
  | nil => rfl
  | cons p rest ih =>
      rw [List.map_cons]
      by_cases hp : p.1 = k
      · rw [if_pos hp,
          List.find?_cons_of_neg _ (by simpa using fun he : k = k' => h he.symm),
          List.find?_cons_of_neg _ (by simpa using fun he : p.1 = k' => h (he ▸ hp))]
        exact ih
      · rw [if_neg hp]
        by_cases hp' : p.1 = k'
        · rw [List.find?_cons_of_pos _ (by simpa using hp'),
            List.find?_cons_of_pos _ (by simpa using hp')]
        · rw [List.find?_cons_of_neg _ (by simpa using hp'),
            List.find?_cons_of_neg _ (by simpa using hp')]
          exact ih

theorem dictGet?_insert_ne (m : List (String × Block)) (k : String) (v : Block)
    (k' : String) (h : k' ≠ k) :
    dictGet? (dictInsert m k v) k' = dictGet? m k' := by
  rw [dictInsert]
  by_cases hany : m.any (fun p => p.1 = k) = true
  · rw [if_pos hany, dictGet?, dictGet?, find?_map_replace_ne k v k' h m]
  · rw [if_neg hany, dictGet?, dictGet?, List.find?_append]
    have hlast : List.find? (fun p => decide (p.1 = k')) [(k, v)] = none := by
      rw [List.find?_eq_none]
      intro x hx
      rcases List.mem_singleton.mp hx with rfl
      simpa using fun he : k = k' => h he.symm
    rw [hlast, Option.or_none]

theorem buildIndex_append_singleton (bs : List Block) (b : Block) :
    buildIndex (bs ++ [b]) = dictInsert (buildIndex bs) b.block_id b := by
  rw [buildIndex, List.foldl_append]
  rfl

theorem dictGet?_buildIndex (bs : List Block) (k : String) :
    dictGet? (buildIndex bs) k = lastWith bs k := by
  induction bs using List.reverseRecOn with
  | nil => rfl
  | append_singleton bs b ih =>
      rw [buildIndex_append_singleton, lastWith, List.filter_append]
      by_cases hk : b.block_id = k
      · rw [hk, dictGet?_insert_self]
        have : [b].filter (fun x => x.block_id = k) = [b] := by
          simp [hk]
        rw [this, List.getLast?_append]
        rfl
      · rw [dictGet?_insert_ne _ _ _ _ (fun he => hk he.symm), ih, lastWith]
        have : [b].filter (fun x => x.block_id = k) = [] := by
          simp [hk]
        rw [this, List.append_nil]

theorem filter_id_eq_single {bs : List Block} (hnd : (idsOf bs).Nodup)
    {j : Nat} (hj : j < bs.length) :
    bs.filter (fun b => b.block_id = bs[j].block_id) = [bs[j]] := by
  induction bs generalizing j with
  | nil => simp at hj
  | cons b rest ih =>
      rw [idsOf, List.map_cons, List.nodup_cons] at hnd
      cases j with
      | zero =>
          simp only [List.getElem_cons_zero]
          rw [List.filter_cons_of_pos (by simp)]
          have : rest.filter (fun x => x.block_id = b.block_id) = [] := by
            rw [List.filter_eq_nil_iff]
            intro x hx hxe
            exact hnd.1 (List.mem_map.mpr ⟨x, hx, (of_decide_eq_true hxe).symm ▸ rfl⟩)
          rw [this]
      | succ j' =>
          have hj' : j' < rest.length := by
            simpa using hj
          simp only [List.getElem_cons_succ]
          have hbne : ¬ b.block_id = rest[j'].block_id := by
            intro he
            exact hnd.1 (List.mem_map.mpr ⟨rest[j'], List.getElem_mem hj', he.symm⟩)
          rw [List.filter_cons_of_neg (by simpa using hbne)]
          exact ih hnd.2 hj'

/-- Under unique block ids, the rebuilt index resolves an id to the (unique)
block of the list bearing it. -/
theorem dictGet?_buildIndex_of_nodup {bs : List Block} (hnd : (idsOf bs).Nodup)
    {j : Nat} (hj : j < bs.length) :
    dictGet? (buildIndex bs) bs[j].block_id = some bs[j] := by
  rw [dictGet?_buildIndex, lastWith, filter_id_eq_single hnd hj]
  rfl

/-! ### Structural decomposition helpers -/

/-- Skipped tables contribute nothing: building from a table list equals
building from the list with the falsy tables removed. -/
theorem buildTables_filter_eq (supply : Nat → String) (serBlockId : String)
    (st : BState) (ts : List Table) :
    buildTables supply serBlockId st ts =
      buildTables supply serBlockId st
        (ts.filter fun t => !(t.columns.isEmpty || t.rows.isEmpty)) := by
  induction ts generalizing st with
  | nil => rfl
  | cons t rest ih =>
      by_cases hc : (t.columns.isEmpty || t.rows.isEmpty) = true
      · rw [buildTables, if_pos hc, List.filter_cons_of_neg (by simp [hc]), ih]
      · rw [buildTables, if_neg hc, List.filter_cons_of_pos (by simp [hc]),
          buildTables, if_neg hc]
        exact ih _

/-- The blocks contributed by one series start with its `section_heading`
block, immediately followed by the hero `image_full` block when the hero
photo is non-blank. -/
theorem buildSeriesOne_blocks (supply : Nat → String) (genM : Bool)
    (settings : Settings) (secBlockId : String) (st : BState) (ser : Series) :
    ∃ rest : List Block,
      (buildSeriesOne supply genM settings secBlockId st ser).blocks =
        st.blocks ++
          seriesHeadingBlock
            (new_block_id (supply st.uid) "ser" [pyOrS ser.code ser.name])
            (pyOrS ser.name (pyOrS ser.code "Серия")) st.order secBlockId ::
          ((if pyStrip ser.hero.photo ≠ "" then
              [heroBlock
                (new_block_id (supply (st.uid + 1)) "img"
                  ["hero", pyOrS ser.code ser.name])
                ser (pyOrS ser.name (pyOrS ser.code "Серия")) (st.order + 10)
                (new_block_id (supply st.uid) "ser" [pyOrS ser.code ser.name])]
            else []) ++ rest) := by
  simp only [buildSeriesOne]
  set serName := pyOrS ser.name (pyOrS ser.code "Серия") with hn
  set serBlockId := new_block_id (supply st.uid) "ser" [pyOrS ser.code ser.name]
    with hsid
  set st1 := push st (seriesHeadingBlock serBlockId serName st.order secBlockId)
    with hst1
  set st2 :=
    if pyStrip ser.hero.photo ≠ "" then
      push st1 (heroBlock
        (new_block_id (supply st1.uid) "img" ["hero", pyOrS ser.code ser.name])
        ser serName st1.order serBlockId)
    else st1
    with hst2
  set mdParts : List String :=
    (if pyStrip ser.summary_md ≠ "" then [pyStrip ser.summary_md] else []) ++
    (if pyStrip ser.construction_md ≠ "" then
       ["**Конструкция**\n" ++ pyStrip ser.construction_md] else [])
    with hmd
  have h3 : GoodStep supply st2
      (if mdParts ≠ [] then
        push st2 (descBlock
          (new_block_id (supply st2.uid) "txt" ["series", pyOrS ser.code ser.name])
          mdParts st2.order serBlockId)
      else st2) := by
    by_cases hc : mdParts ≠ []
    · rw [if_pos hc]
      refine goodStep_push supply st2 _ rfl ?_ ?_
      · intro pid hp
        injection hp with h
        exact h ▸ (by
          have hser1 : serBlockId ∈ idsOf st1.blocks := pushed_id_mem st _
          rw [hst2]
          by_cases hh : pyStrip ser.hero.photo ≠ ""
          · rw [if_pos hh]
            obtain ⟨nn, hbb, -⟩ :=
              goodStep_push_gen supply st1 (heroBlock
                (new_block_id (supply st1.uid) "img" ["hero", pyOrS ser.code ser.name])
                ser serName st1.order serBlockId) rfl
                (fun pid2 hp2 => by injection hp2 with h2; exact h2 ▸ hser1)
                ⟨st1.uid, "img", _, rfl⟩
            rw [hbb, idsOf, List.map_append]
            exact List.mem_append.mpr (Or.inl hser1)
          · rw [if_neg hh]
            exact hser1)
      · intro hs
        exact idOK_new_block_id _ (fun c hc2 => (hs st2.uid).2 c hc2) _ _
    · rw [if_neg hc]
      exact goodStep_refl supply st2
  set st3 :=
    if mdParts ≠ [] then
      push st2 (descBlock
        (new_block_id (supply st2.uid) "txt" ["series", pyOrS ser.code ser.name])
        mdParts st2.order serBlockId)
    else st2
    with hst3
  obtain ⟨n3, hb3, -⟩ := h3
  have hser2 : serBlockId ∈ idsOf st2.blocks := by
    have hser1 : serBlockId ∈ idsOf st1.blocks := pushed_id_mem st _
    rw [hst2]
    by_cases hh : pyStrip ser.hero.photo ≠ ""
    · rw [if_pos hh, push, idsOf, List.map_append]
      exact List.mem_append.mpr (Or.inl hser1)
    · rw [if_neg hh]
      exact hser1
  have hser3 : serBlockId ∈ idsOf st3.blocks := by
    rw [hb3, idsOf, List.map_append]
    exact List.mem_append.mpr (Or.inl hser2)
  have h4 := buildTables_good supply serBlockId ser.tables st3 hser3
  set st4 := buildTables supply serBlockId st3 ser.tables with hst4
  have hser4 : serBlockId ∈ idsOf st4.blocks := goodStep_ids_mono h4 hser3
  have h5 := buildMedia_good supply ser.code serName serBlockId ser.media st4 hser4
  set st5 := buildMedia supply ser.code serName serBlockId st4 ser.media with hst5
  have hser5 : serBlockId ∈ idsOf st5.blocks := goodStep_ids_mono h5 hser4
  have h6 : GoodStep supply st5
      (if genM then buildModels supply settings serBlockId st5 ser.models
       else st5) := by
    by_cases hg : genM
    · rw [if_pos hg]
      exact buildModels_good supply settings serBlockId ser.models st5 hser5
    · rw [if_neg hg]
      exact goodStep_refl supply st5
  obtain ⟨n4, hb4, -⟩ := h4
  obtain ⟨n5, hb5, -⟩ := h5
  obtain ⟨n6, hb6, -⟩ := h6
  refine ⟨n3 ++ n4 ++ n5 ++ n6, ?_⟩
  rw [hb6, hb5, hb4, hb3]
  by_cases hh : pyStrip ser.hero.photo ≠ ""
  · rw [hst2, if_pos hh, if_pos hh, hst1]
    simp [push, List.append_assoc]
  · rw [hst2, if_neg hh, if_neg hh, hst1]
    simp [push, List.append_assoc]

/-- The emitted block list always starts with the front cover block. -/
theorem buildBlocks_first (supply : Nat → String) (catalog : Catalog) :
    ∃ rest : List Block,
      buildBlocks supply catalog =
        coverBlock (new_block_id (supply 0) "cover" ["front"]) 0 :: rest := by
  rw [buildBlocks_eq_state]
  simp only [buildBlocksState]
  set st1 := push ⟨[], 0, 0⟩
    (coverBlock (new_block_id (supply (0 : Nat)) "cover" ["front"]) 0) with hst1
  set st2 := push st1 (tocBlock (new_block_id (supply st1.uid) "toc" ["contents"]) st1.order)
    with hst2
  obtain ⟨n3, hb3, -⟩ := buildSections_good supply (gen_models catalog.settings)
    catalog.settings catalog.sections st2
  set st3 := buildSections supply (gen_models catalog.settings) catalog.settings
    st2 catalog.sections with hst3
  refine ⟨(tocBlock (new_block_id (supply st1.uid) "toc" ["contents"]) st1.order) ::
    (n3 ++ [backcoverBlock (new_block_id (supply st3.uid) "cover" ["back"]) st3.order]), ?_⟩
  show (push st3 (backcoverBlock (new_block_id (supply st3.uid) "cover" ["back"]) st3.order)).blocks = _
  rw [push, hb3, hst2, push, hst1, push]
  simp [List.append_assoc]

/-! ### Concrete data for witnesses and counterexamples -/

/-- A fixed hex supply: every draw is the same 32-character hex string (the
concrete runs below keep ids distinct through their distinct slugs). -/
def supplyC : Nat → String := fun _ => "0123456789abcdef0123456789abcdef"

theorem supplyC_hex : HexOK supplyC := by
  intro k
  refine ⟨rfl, ?_⟩
  show ∀ c ∈ ("0123456789abcdef0123456789abcdef" : String).data, isHexLower c = true
  decide

def tW1 : Table :=
  { title := "Размеры", columns := [⟨"k", "K"⟩], rows := [[("k", .str "v")]] }

/-- A table with rows but no columns: falsy `columns`, skipped by the
builder. -/
def tWempty : Table :=
  { title := "Пустая", columns := [], rows := [[("k", .str "v")]] }

def csW : CurveSeries := { label := "A", points := [(.finite 1, .finite 2)] }

def dsW : CurveDataset := { x_unit := "Q", y_unit := "P", series := [csW] }

/-- A curve media item with a non-blank file and a populated dataset. -/
def mW1 : MediaItem :=
  { id := "m1", type := .curve, file := "c.png", caption := "Кривая",
    dataset := some dsW }

def mW2 : MediaItem := { id := "m2", type := .photo, file := "p.png" }

def moW : Model := { sku := "M1", name := "Модель 1" }

def serW : Series :=
  { code := "VKO", name := "Серия VKO", hero := { photo := "h.png" },
    summary_md := "Описание", tables := [tW1, tWempty], media := [mW1, mW2],
    models := [moW] }

def secW : Section :=
  { code := "SEC", title := "Вентиляторы", intro_md := "Введение раздела",
    series := [serW] }

def catW : Catalog := { settings := {}, sections := [secW] }

/-- A raw document whose settings carry `generate_model_pages = "yes"` and
which holds a model with a non-empty SKU. -/
def c5doc : PValue :=
  .obj [("settings", .obj [("generate_model_pages", .str "yes")]),
        ("sections", .list [.obj [("code", .str "S"), ("title", .str "Секция"),
          ("series", .list [.obj [("code", .str "V"), ("name", .str "Серия"),
            ("models", .list [.obj [("sku", .str "M1"), ("name", .str "Модель")]])]])]])]

/-- An otherwise valid document whose single model has the non-coercible
price string `"abc"`. -/
def c4doc : PValue :=
  .obj [("sections", .list [.obj [("series", .list [.obj [
    ("models", .list [.obj [("sku", .str "M2"), ("price", .str "abc")]])]])]])]

/-- The same document with a `null` price instead. -/
def c4docNull : PValue :=
  .obj [("sections", .list [.obj [("series", .list [.obj [
    ("models", .list [.obj [("sku", .str "M2"), ("price", .null)]])]])]])]

/-- A hand-made block list for the TOC resolver: `blkB` is a heading nested
under the heading `blkA` with no explicit level; `blkC` is a top-level
heading carrying the explicit level 2 against its (empty) ancestor chain. -/
def blkA : Block := { block_id := "A", type := "section_heading" }

def blkB : Block :=
  { block_id := "B", type := "section_heading", parent_id := some "A" }

def blkC : Block :=
  { block_id := "C", type := "section_heading",
    params := [("toc_level", .int 2)] }

def mbW : ModelBundle :=
  ModelBundle.rebuild_index
    { settings := {}, sections := [], blocks := [blkA, blkB, blkC],
      block_index := [] }

/-! ### The claims -/

/-- C1: for every input catalog (and id-draw supply), the block list of the
bundle produced by `load_catalog` is exactly the emission-order list — the
stable sort by `order` reproduces emission order — and its `order` keys are
`0, 10, 20, …`: assigned in emission order with the constant step 10, hence
strictly increasing and unique. -/
theorem C1_orders_step10_emission_order (supply : Nat → String) (catalog : Catalog) :
    (load_catalog supply catalog).blocks = buildBlocks supply catalog ∧
    ∀ i (h : i < (load_catalog supply catalog).blocks.length),
      ((load_catalog supply catalog).blocks)[i].order = 10 * i := by
  refine ⟨load_catalog_blocks supply catalog, ?_⟩
  intro i h
  simp only [load_catalog_blocks] at h ⊢
  exact (buildBlocks_spec supply catalog).1 i h

/-- Witness for C1: on a concrete catalog the index bound holds and the
order of the second block evaluates to 10. -/
theorem C1_witness :
    1 < (load_catalog supplyC catW).blocks.length ∧
    ((load_catalog supplyC catW).blocks.map Block.order)[1]? = some 10 := by
  have hlen : 1 < (load_catalog supplyC catW).blocks.length := by
    rw [load_catalog_blocks]
    decide
  have h10 := (C1_orders_step10_emission_order supplyC catW).2 1 hlen
  refine ⟨hlen, ?_⟩
  rw [List.getElem?_eq_getElem (by simpa using hlen), List.getElem_map, h10]

/-- C2: assuming the generated block ids are collision-free (the `uuid4`
freshness the source relies on), every block of the bundle with a non-null
`parent_id` names an id that the identifier index resolves to a block of the
list, and that block appears strictly earlier — with a strictly smaller
`order`. -/
theorem C2_parent_resolves_earlier (supply : Nat → String) (catalog : Catalog)
    (hnd : (idsOf (load_catalog supply catalog).blocks).Nodup) :
    ∀ i (hi : i < (load_catalog supply catalog).blocks.length) pid,
      ((load_catalog supply catalog).blocks)[i].parent_id = some pid →
      ∃ j, ∃ hj : j < (load_catalog supply catalog).blocks.length,
        j < i ∧ ((load_catalog supply catalog).blocks)[j].block_id = pid ∧
        dictGet? (load_catalog supply catalog).block_index pid =
          some ((load_catalog supply catalog).blocks)[j] ∧
        ((load_catalog supply catalog).blocks)[j].order <
          ((load_catalog supply catalog).blocks)[i].order := by
  simp only [load_catalog_index, load_catalog_blocks] at hnd ⊢
  intro i hi pid hp
  have hch := (buildBlocks_spec supply catalog).2.1 i hi pid hp
  simp only [List.nil_append, idsOf] at hch
  obtain ⟨x, hxmem, hxid⟩ := List.mem_map.mp hch
  obtain ⟨j, hj, hxeq⟩ := List.mem_iff_getElem.mp hxmem
  rw [List.length_take] at hj
  have hji : j < i := by omega
  have hjlen : j < (buildBlocks supply catalog).length := by omega
  rw [List.getElem_take] at hxeq
  refine ⟨j, hjlen, hji, ?_, ?_, ?_⟩
  · rw [hxeq]; exact hxid
  · have := dictGet?_buildIndex_of_nodup hnd hjlen
    rw [hxeq, hxid] at this
    rw [this, hxeq]
  · rw [(buildBlocks_spec supply catalog).1 j hjlen,
      (buildBlocks_spec supply catalog).1 i hi]
    omega

/-- Witness for C2: the id-uniqueness hypothesis holds on a concrete run and
the theorem applies. -/
theorem C2_witness :
    (idsOf (load_catalog supplyC catW).blocks).Nodup ∧
    ∀ i (hi : i < (load_catalog supplyC catW).blocks.length) pid,
      ((load_catalog supplyC catW).blocks)[i].parent_id = some pid →
      ∃ j, ∃ hj : j < (load_catalog supplyC catW).blocks.length,
        j < i ∧ ((load_catalog supplyC catW).blocks)[j].block_id = pid ∧
        dictGet? (load_catalog supplyC catW).block_index pid =
          some ((load_catalog supplyC catW).blocks)[j] ∧
        ((load_catalog supplyC catW).blocks)[j].order <
          ((load_catalog supplyC catW).blocks)[i].order := by
  have hnd : (idsOf (load_catalog supplyC catW).blocks).Nodup := by
    rw [load_catalog_blocks]
    decide
  exact ⟨hnd, C2_parent_resolves_earlier supplyC catW hnd⟩

/-- C10: for a hex id supply, every `block_id` the loader assigns is a
non-empty string of ASCII letters, digits, hyphens and underscores of length
at most 71 (slug capped at 64, a hyphen, a 6-character hex suffix), so the
derived `sec-…` anchors are well-formed HTML ids. -/
theorem C10_ids_wellformed (supply : Nat → String) (catalog : Catalog)
    (hs : HexOK supply) :
    ∀ b ∈ (load_catalog supply catalog).blocks,
      b.block_id ≠ "" ∧ (∀ c ∈ b.block_id.data, idSafe c) ∧
      b.block_id.length ≤ 71 := by
  intro b hb
  rw [load_catalog_blocks] at hb
  exact (buildBlocks_spec supply catalog).2.2 hs b hb

/-- Witness for C10: the hex-supply hypothesis holds for the concrete supply
and the theorem applies to a concrete catalog. -/
theorem C10_witness :
    HexOK supplyC ∧
    ∀ b ∈ (load_catalog supplyC catW).blocks,
      b.block_id ≠ "" ∧ (∀ c ∈ b.block_id.data, idSafe c) ∧
      b.block_id.length ≤ 71 :=
  ⟨supplyC_hex, C10_ids_wellformed supplyC catW supplyC_hex⟩

/-- C7: for every bundle and block, an explicit `toc_level` parameter that
`int()`-coerces to 1 or 2 fixes the resolved TOC level to exactly that
value, regardless of the actual ancestor chain of the block (the bundle is
arbitrary and never consulted). -/
theorem C7_explicit_level_wins (model : ModelBundle) (b : Block) (n : Int)
    (hnn : isNull (getParam b.params "toc_level") = false)
    (hint : pyInt? (getParam b.params "toc_level") = some n)
    (h12 : n = 1 ∨ n = 2) :
    infer_section_level model b = n := by
  rw [infer_section_level]
  rw [if_neg (by rw [hnn]; simp), hint]
  rcases h12 with rfl | rfl <;> simp

/-- Witness for C7: a heading with explicit level 2 whose ancestor chain
would infer level 1 still resolves to 2. -/
theorem C7_witness :
    isNull (getParam blkC.params "toc_level") = false ∧
    pyInt? (getParam blkC.params "toc_level") = some 2 ∧
    ((2 : Int) = 1 ∨ (2 : Int) = 2) ∧
    infer_section_level_by_hierarchy mbW blkC = 1 ∧
    infer_section_level mbW blkC = 2 :=
  ⟨by decide, by decide, Or.inr rfl, by decide,
    C7_explicit_level_wins mbW blkC 2 (by decide) (by decide) (Or.inr rfl)⟩

/-- C8: a `section_heading` block without an explicit level parameter gets
its level from the identifier-index parent-chain walk (hard-capped at 100
steps): level 1 when no block in the chain is itself a `section_heading`,
level 2 when one or more are (deeper nesting collapses to 2). -/
theorem C8_hierarchy_level (model : ModelBundle) (b : Block)
    (hty : pyLower b.type = "section_heading")
    (hnull : isNull (getParam b.params "toc_level") = true) :
    infer_section_level model b =
      if (parents_chain model b).countP
          (fun p => pyLower p.type = "section_heading") = 0
      then 1 else 2 := by
  rw [infer_section_level, if_pos (by rw [hnull])]
  rw [infer_section_level_by_hierarchy, if_neg (by rw [hty]; simp)]

/-- Witness for C8: a heading one level under another heading and with no
explicit level resolves to 2; the top heading resolves to 1. -/
theorem C8_witness :
    pyLower blkB.type = "section_heading" ∧
    isNull (getParam blkB.params "toc_level") = true ∧
    (parents_chain mbW blkB).countP
      (fun p => pyLower p.type = "section_heading") = 1 ∧
    infer_section_level mbW blkB =
      (if (parents_chain mbW blkB).countP
          (fun p => pyLower p.type = "section_heading") = 0
       then 1 else 2) ∧
    infer_section_level mbW blkA = 1 :=
  ⟨by decide, by decide, by decide,
    C8_hierarchy_level mbW blkB (by decide) (by decide), by decide⟩

/-- C9: a table with empty `rows` or empty `columns` produces no block —
building from a table list equals building from that list with the falsy
tables dropped — while the series still always contributes its
`section_heading` block first, immediately followed by its hero `image_full`
block when the hero photo is non-blank. -/
theorem C9_empty_tables_skipped_heading_kept (supply : Nat → String)
    (genM : Bool) (settings : Settings) (secBlockId serBlockId : String)
    (st : BState) (ts : List Table) (ser : Series) :
    buildTables supply serBlockId st ts =
      buildTables supply serBlockId st
        (ts.filter fun t => !(t.columns.isEmpty || t.rows.isEmpty)) ∧
    (((buildSeriesOne supply genM settings secBlockId st ser).blocks.drop
        st.blocks.length).head?).map Block.type = some "section_heading" ∧
    (pyStrip ser.hero.photo ≠ "" →
      (((buildSeriesOne supply genM settings secBlockId st ser).blocks.drop
          (st.blocks.length + 1)).head?).map Block.type = some "image_full") := by
  obtain ⟨rest, hr⟩ := buildSeriesOne_blocks supply genM settings secBlockId st ser
  refine ⟨buildTables_filter_eq supply serBlockId st ts, ?_, ?_⟩
  · rw [hr, List.drop_left]
    rfl
  · intro hh
    rw [hr, ← List.drop_drop, List.drop_left, if_pos hh]
    rfl

/-- Witness for C9: on a concrete series with one non-empty and one empty
table and a non-blank hero photo. -/
theorem C9_witness :
    pyStrip serW.hero.photo ≠ "" ∧
    buildTables supplyC "ser-0" ⟨[], 0, 0⟩ serW.tables =
      buildTables supplyC "ser-0" ⟨[], 0, 0⟩
        (serW.tables.filter fun t => !(t.columns.isEmpty || t.rows.isEmpty)) ∧
    (((buildSeriesOne supplyC false {} "sec-0" ⟨[], 0, 0⟩ serW).blocks.drop
        ((⟨[], 0, 0⟩ : BState).blocks.length)).head?).map Block.type =
      some "section_heading" ∧
    (((buildSeriesOne supplyC false {} "sec-0" ⟨[], 0, 0⟩ serW).blocks.drop
        ((⟨[], 0, 0⟩ : BState).blocks.length + 1)).head?).map Block.type =
      some "image_full" := by
  have h := C9_empty_tables_skipped_heading_kept supplyC false {} "sec-0"
    "ser-0" ⟨[], 0, 0⟩ serW.tables serW
  exact ⟨by decide, h.1, h.2.1, h.2.2 (by decide)⟩

/-! ### C3, C4, C5, C6 — concrete data -/

def serC3 : Series := { code := "S3", name := "Серия 3", media := [mW1] }

def catC3 : Catalog :=
  { settings := {},
    sections := [{ code := "K", title := "Тип", series := [serC3] }] }

/-- C3 (code bug): a curve media item with a non-blank file and a populated
dataset yields an `image_full` block, not a `curve` block — `str(m.type)` on
the `str`-mixin enum is `"MediaType.curve"` and never equals `"curve"`, so
the curve branch of the media loop is unreachable. -/
theorem C3_curve_item_gets_image_block :
    pyStrip mW1.file ≠ "" ∧
    mW1.type = MediaType.curve ∧
    mW1.dataset = some dsW ∧ dsW.series ≠ [] ∧
    mediaTypeStr MediaType.curve = "MediaType.curve" ∧
    ((load_catalog supplyC catC3).blocks.map Block.type) =
      ["cover", "toc", "section_heading", "section_heading", "image_full",
        "backcover"] ∧
    "curve" ∉ ((load_catalog supplyC catC3).blocks.map Block.type) := by
  refine ⟨by decide, rfl, rfl, by decide, rfl, ?_, ?_⟩
  · rw [load_catalog_blocks]
    decide
  · rw [load_catalog_blocks]
    decide

/-- C4 counterexample: a present, non-empty, non-float-coercible price
aborts the whole load (the claim says it is nulled and the load continues),
while the same document with a `null` price parses fine. -/
theorem C4_counterexample :
    (Catalog.fromDict? c4doc).isNone = true ∧
    (Catalog.fromDict? c4docNull).isSome = true :=
  ⟨by decide, by decide⟩

/-- C4 (amended): malformed curve points are dropped per item and parsing of
the remaining points continues — the parsed point list is exactly the
filter-map of the per-point coercion; the price is nulled only when the
`price` field is absent, `None` or the empty string; a present, non-empty,
non-coercible price aborts the model parse. -/
theorem C4_points_dropped_price_strict :
    (∀ (d : List (String × PValue)) (raw : List PValue),
        pyElems? (pyDictGet d "points") = some raw →
        ∃ cs, CurveSeries.fromDict? (.obj d) = some cs ∧
          cs.points = raw.filterMap coercePoint?) ∧
    (∀ (d : List (String × PValue)) (m : Model),
        Model.fromDict? (.obj d) = some m →
        m.price =
          (match d.find? (fun q => q.1 = "price") with
           | none => none
           | some p => if isNoneOrEmptyStr p.2 then none else pyFloat? p.2)) ∧
    (∀ (d : List (String × PValue)) (p : String × PValue),
        d.find? (fun q => q.1 = "price") = some p →
        isNoneOrEmptyStr p.2 = false → pyFloat? p.2 = none →
        Model.fromDict? (.obj d) = none) := by
  refine ⟨?_, ?_, ?_⟩
  · intro d raw hraw
    refine ⟨⟨strField d "label", raw.filterMap coercePoint?⟩, ?_, rfl⟩
    simp only [CurveSeries.fromDict?, hraw, Option.bind_eq_bind,
      Option.some_bind]
    rfl
  · intro d m hm
    simp only [Model.fromDict?, Option.bind_eq_bind] at hm
    cases hf : d.find? (fun q => q.1 = "price") with
    | none =>
        simp only [hf, Option.some_bind] at hm ⊢
        obtain ⟨a, -, hm⟩ := Option.bind_eq_some.mp hm
        obtain ⟨r, -, hm⟩ := Option.bind_eq_some.mp hm
        injection hm with hm
        rw [← hm]
    | some p =>
        simp only [hf] at hm ⊢
        by_cases hnn : isNoneOrEmptyStr p.2 = true
        · rw [if_pos hnn] at hm
          rw [if_pos hnn]
          rw [Option.some_bind] at hm
          obtain ⟨a, -, hm⟩ := Option.bind_eq_some.mp hm
          obtain ⟨r, -, hm⟩ := Option.bind_eq_some.mp hm
          injection hm with hm
          rw [← hm]
        · rw [if_neg hnn] at hm
          rw [if_neg hnn]
          cases hfl : pyFloat? p.2 with
          | none =>
              rw [hfl] at hm
              exact Option.noConfusion hm
          | some x =>
              rw [hfl] at hm
              simp only [Option.map_some', Option.some_bind] at hm
              obtain ⟨a, -, hm⟩ := Option.bind_eq_some.mp hm
              obtain ⟨r, -, hm⟩ := Option.bind_eq_some.mp hm
              injection hm with hm
              rw [← hm]
  · intro d p hf hnn hfl
    simp only [Model.fromDict?, Option.bind_eq_bind, hf, hnn, hfl]
    simp

/-- Witness for C4 (amended): a point list with one well-formed and two
malformed points keeps exactly the well-formed one; an absent price parses
to `None`; the price string `"abc"` aborts. -/
theorem C4_witness :
    pyElems? (pyDictGet
        [("label", .str "A"),
         ("points", .list [.list [.int 1, .int 2], .str "xxx", .list [.int 3]])]
        "points") =
      some [.list [.int 1, .int 2], .str "xxx", .list [.int 3]] ∧
    (∃ cs, CurveSeries.fromDict? (.obj
        [("label", .str "A"),
         ("points", .list [.list [.int 1, .int 2], .str "xxx", .list [.int 3]])]) =
        some cs ∧
      cs.points = [.list [.int 1, .int 2], .str "xxx",
        .list [.int 3]].filterMap coercePoint?) ∧
    ([.list [.int 1, .int 2], .str "xxx", .list [.int 3]].filterMap
        coercePoint?) = [(.finite 1, .finite 2)] ∧
    Model.fromDict? (.obj [("sku", .str "M")]) =
      some { sku := "M", name := "" } ∧
    ({ sku := "M", name := "" } : Model).price =
      (match ([("sku", .str "M")] : List (String × PValue)).find?
          (fun q => q.1 = "price") with
       | none => none
       | some p => if isNoneOrEmptyStr p.2 then none else pyFloat? p.2) ∧
    ([("sku", .str "M"), ("price", .str "abc")] : List (String × PValue)).find?
        (fun q => q.1 = "price") = some ("price", .str "abc") ∧
    isNoneOrEmptyStr (.str "abc") = false ∧
    pyFloat? (.str "abc") = none ∧
    Model.fromDict? (.obj [("sku", .str "M"), ("price", .str "abc")]) = none := by
  have hmod : Model.fromDict? (.obj [("sku", .str "M")]) =
      some { sku := "M", name := "" } := rfl
  refine ⟨rfl, C4_points_dropped_price_strict.1 _ _ rfl, by decide,
    hmod, C4_points_dropped_price_strict.2.1 _ _ hmod, rfl, rfl, by decide, ?_⟩
  exact C4_points_dropped_price_strict.2.2 _ ("price", .str "abc") rfl rfl
    (by decide)

def c5ser : Series :=
  { code := "V", name := "Серия", models := [{ sku := "M1", name := "Модель" }] }

def c5sec : Section := { code := "S", title := "Секция", series := [c5ser] }

def c5cat : Catalog := { settings := {}, sections := [c5sec] }

/-- C5 (code bug): the `generate_model_pages` key of the input settings is
discarded by `Settings.from_dict` (the dataclass has no such field), so
`Settings.get` always answers `"no"`, `gen_models` is false for every
`Settings` value, and no `spec_table` block is ever emitted — even for this
document whose settings carry `generate_model_pages = "yes"` and whose model
has the non-empty SKU `M1`. -/
theorem C5_flag_unreachable_no_spec_table :
    Catalog.fromDict? c5doc = some c5cat ∧
    Settings.fromDict? (.obj [("generate_model_pages", .str "yes")]) =
      some ({} : Settings) ∧
    (∀ s : Settings, s.pyGet "generate_model_pages" "no" = "no") ∧
    (∀ s : Settings, gen_models s = false) ∧
    c5cat.sections.map (fun s => s.series.map fun ser =>
      ser.models.map fun m => pyStrip m.sku) = [[["M1"]]] ∧
    "spec_table" ∉ ((load_catalog supplyC c5cat).blocks.map Block.type) := by
  refine ⟨rfl, rfl, fun s => rfl, fun s => rfl, by decide, ?_⟩
  rw [load_catalog_blocks]
  decide

/-- C6 counterexample: with the no-cover flag of the caller set, the block list
built by the pipeline still begins with a `cover` block. -/
theorem C6_counterexample :
    ((cliBlocks true supplyC catW).map Block.type).head? = some "cover" := by
  show (((load_catalog supplyC catW).blocks).map Block.type).head? = some "cover"
  rw [load_catalog_blocks]
  decide

/-- C6 (amended): `load_catalog` unconditionally emits the cover block as
the first block, for every value of the no-cover flag of the caller; the flag
only suppresses the rendered cover/backcover HTML fragments. -/
theorem C6_cover_always_first (no_cover : Bool) (supply : Nat → String)
    (catalog : Catalog) :
    ((cliBlocks no_cover supply catalog).map Block.type).head? = some "cover" := by
  show (((load_catalog supply catalog).blocks).map Block.type).head? = some "cover"
  rw [load_catalog_blocks]
  obtain ⟨rest, hr⟩ := buildBlocks_first supply catalog
  rw [hr]
  rfl

end MakeCatalog
